import Mathlib

/-
Verification of the user-access-review engine.

Shallow embedding of the normalization-and-rule-evaluation core:
  - models/findings.py        (Severity, Finding, FindingType)
  - models/data_source.py     (conform, load_csv, add_finding, has_logged_in)
  - analysis/validation_helper.py (NEVER_LOGGED_IN, has_date_value, is_valid_name, is_valid_email)
  - analysis/static_analysis.py   (StaticAnalysis.validate)
  - dynamic_analysis.py       (DynamicAnalysis.compare, DynamicAnalysis.validate)
  - config/common_fields.py   (common_fields, default_values)

Library calls of the Python runtime (regex matching, dateutil parsing,
str rendering of datetimes) are modeled either concretely where the
pattern is fixed and simple, or as explicit function parameters where
the semantics is external to this repository.
-/

namespace UAR

/-- Python exception classes that the embedded code can raise. -/
inductive PyErr where
  | keyError (name : String)
  | valueError (msg : String)
  | indexError
  | typeError
  | attributeError
deriving DecidableEq, Repr

/-- Severity levels for findings, from models/findings.py. -/
inductive Severity where
  | compliance
  | error
  | warning
  | notice
deriving DecidableEq, Repr

/-- The left-brace character, written via its code point. -/
def lbrace : Char := Char.ofNat 123

/-- The right-brace character, written via its code point. -/
def rbrace : Char := Char.ofNat 125

/-- Lookup of a keyword argument by name, modelling Python keyword-dict access. -/
def lookupKw (kw : List (String × String)) (k : String) : Option String :=
  (kw.find? (fun p => p.1 == k)).map (fun p => p.2)

/-- Model of the Python dict merge used in Finding call: existing bindings
for the key are overridden, otherwise the binding is appended. -/
def setKw (kw : List (String × String)) (k v : String) : List (String × String) :=
  if (kw.find? (fun p => p.1 == k)).isSome then
    kw.map (fun p => if p.1 == k then (k, v) else p)
  else kw ++ [(k, v)]

/-- Read a replacement-field name up to the closing brace; returns the name
and the remaining characters, or nothing when the brace is unmatched. -/
def readField : List Char → Option (String × List Char)
  | [] => Option.none
  | c :: rest =>
    if c = rbrace then some ("", rest)
    else
      match readField rest with
      | some (name, r) => some (String.mk (c :: name.data), r)
      | Option.none => Option.none

/-- Model of Python str.format restricted to plain replacement fields,
processing the template left to right: a missing keyword raises KeyError
at the first missing field, a stray brace raises ValueError. The fuel
argument makes the recursion structural; every recursive call consumes at
least one character, so fuel equal to the character count never runs out. -/
def fmtGo (kw : List (String × String)) : Nat → List Char → Except PyErr String
  | _, [] => .ok ""
  | 0, _ :: _ => .error (.valueError "format fuel exhausted")
  | fuel + 1, cs =>
    match cs with
    | [] => .ok ""
    | c :: rest =>
      if c = lbrace then
        match rest with
        | [] => .error (.valueError "Single brace encountered in format string")
        | c2 :: rest2 =>
          if c2 = lbrace then (fmtGo kw fuel rest2).map (fun t => String.mk [c2] ++ t)
          else
            match readField (c2 :: rest2) with
            | Option.none => .error (.valueError "Single brace encountered in format string")
            | some (name, r) =>
              match lookupKw kw name with
              | Option.none => .error (.keyError name)
              | some v => (fmtGo kw fuel r).map (fun t => v ++ t)
      else if c = rbrace then
        match rest with
        | [] => .error (.valueError "Single brace encountered in format string")
        | c2 :: rest2 =>
          if c2 = rbrace then (fmtGo kw fuel rest2).map (fun t => String.mk [c2] ++ t)
          else .error (.valueError "Single brace encountered in format string")
      else (fmtGo kw fuel rest).map (fun t => String.mk [c] ++ t)

/-- Formatting of a whole template: run the formatter with sufficient fuel. -/
def formatChars (kw : List (String × String)) (cs : List Char) : Except PyErr String :=
  fmtGo kw cs.length cs

/-- The replacement-field names of a template, in order of occurrence
(same recursion structure as the formatter). -/
def fieldsGo : Nat → List Char → List String
  | _, [] => []
  | 0, _ :: _ => []
  | fuel + 1, cs =>
    match cs with
    | [] => []
    | c :: rest =>
      if c = lbrace then
        match rest with
        | [] => []
        | c2 :: rest2 =>
          if c2 = lbrace then fieldsGo fuel rest2
          else
            match readField (c2 :: rest2) with
            | Option.none => []
            | some (name, r) => name :: fieldsGo fuel r
      else if c = rbrace then
        match rest with
        | [] => []
        | c2 :: rest2 => if c2 = rbrace then fieldsGo fuel rest2 else []
      else fieldsGo fuel rest

/-- The replacement-field names of a whole template. -/
def fieldsChars (cs : List Char) : List String :=
  fieldsGo cs.length cs

/-- Well-formedness of a template: no stray brace that would make
formatting raise ValueError (same recursion structure as the formatter). -/
def wfGo : Nat → List Char → Bool
  | _, [] => true
  | 0, _ :: _ => false
  | fuel + 1, cs =>
    match cs with
    | [] => true
    | c :: rest =>
      if c = lbrace then
        match rest with
        | [] => false
        | c2 :: rest2 =>
          if c2 = lbrace then wfGo fuel rest2
          else
            match readField (c2 :: rest2) with
            | Option.none => false
            | some (_, r) => wfGo fuel r
      else if c = rbrace then
        match rest with
        | [] => false
        | c2 :: rest2 => if c2 = rbrace then wfGo fuel rest2 else false
      else wfGo fuel rest

/-- Well-formedness of a whole template. -/
def wfChars (cs : List Char) : Bool :=
  wfGo cs.length cs

/-- The replacement fields of a template that the supplied keywords do not
cover, in order of occurrence, at a given fuel. -/
def missingGo (kw : List (String × String)) (fuel : Nat) (cs : List Char) : List String :=
  (fieldsGo fuel cs).filter (fun n => (lookupKw kw n).isNone)

/-- The replacement fields of a template that the supplied keywords do not
cover, in order of occurrence. -/
def missingKw (kw : List (String × String)) (cs : List Char) : List String :=
  missingGo kw cs.length cs

/-- A finding type: key, message template and severity, from models/findings.py.
The formattedMessage field is set on bound instances produced by call. -/
structure Finding where
  key : String
  description : String
  severity : Severity
  formattedMessage : Option String := Option.none
deriving DecidableEq, Repr

/-- Model of Finding call from models/findings.py: format the template with
the keyword parameters; on a KeyError for a missing parameter, retry once
with that single parameter bound to the sentinel marker, letting any further
KeyError propagate. -/
def Finding.call (f : Finding) (kw : List (String × String)) : Except PyErr Finding :=
  match formatChars kw f.description.data with
  | .ok msg => .ok { f with formattedMessage := some msg }
  | .error (.keyError n) =>
    match formatChars (setKw kw n "##N/A##") f.description.data with
    | .ok msg => .ok { f with formattedMessage := some msg }
    | .error e => .error e
  | .error e => .error e

/-- The formatted message of a bound finding, falling back to the raw
template, from the message property in models/findings.py. -/
def Finding.message (f : Finding) : String :=
  f.formattedMessage.getD f.description

namespace FindingType

def ACCESS_EXTRA : Finding :=
  ⟨"ACCESS_EXTRA", "Has access in comparison that is not in source of truth ({access})", .warning, Option.none⟩
def ACCESS_INVALID : Finding :=
  ⟨"ACCESS_INVALID", "Invalid access: \"{access}\"", .error, Option.none⟩
def ACCESS_MISSING : Finding :=
  ⟨"ACCESS_MISSING", "No access", .error, Option.none⟩
def ACCESS_PRIVILEGED : Finding :=
  ⟨"ACCESS_PRIVILEGED", "Privileged access", .compliance, Option.none⟩

def DEPT_INVALID : Finding :=
  ⟨"DEPT_INVALID", "Invalid or unexpected department: \"{department}\"", .error, Option.none⟩
def DEPT_MISMATCH : Finding :=
  ⟨"DEPT_MISMATCH", "Department does not match between sources (source: \"{source_dept}\", compare: \"{compare_dept}\")", .warning, Option.none⟩
def DEPT_MISSING : Finding :=
  ⟨"DEPT_MISSING", "Missing department", .error, Option.none⟩

def DOMAIN_INVALID : Finding :=
  ⟨"DOMAIN_INVALID", "Email domain is not approved (domain: \"{domain}\")", .error, Option.none⟩
def DOMAIN_MISMATCH : Finding :=
  ⟨"DOMAIN_MISMATCH", "Email domain does not match (source \"{domain}\", compare: \"{compare_domain}\")", .error, Option.none⟩
def EMAIL_INVALID : Finding :=
  ⟨"EMAIL_INVALID", "Invalid email address: {email}", .error, Option.none⟩
def EMAIL_MISMATCH : Finding :=
  ⟨"EMAIL_MISMATCH", "Email does not match between sources (source: \"{source_email}\", compare: \"{compare_email}\")", .error, Option.none⟩
def EMAIL_MISSING : Finding :=
  ⟨"EMAIL_MISSING", "No email address", .error, Option.none⟩

def DOCUMENTED_EXCEPTION : Finding :=
  ⟨"DOCUMENTED_EXCEPTION", "{reason}", .notice, Option.none⟩

def LOGIN_NEVER : Finding :=
  ⟨"LOGIN_NEVER", "Never logged in", .warning, Option.none⟩
def LOGIN_NEVER_AGED : Finding :=
  ⟨"LOGIN_NEVER_AGED", "User has never logged in and is {age} days old", .warning, Option.none⟩

def LOCATION_INVALID : Finding :=
  ⟨"LOCATION_INVALID", "Invalid location: \"{location}\"", .error, Option.none⟩
def LOCATION_MISMATCH : Finding :=
  ⟨"LOCATION_MISMATCH", "Location does not match between sources (source: \"{source_location}\", compare: \"{compare_location}\")", .warning, Option.none⟩
def LOCATION_MISSING : Finding :=
  ⟨"LOCATION_MISSING", "No location", .error, Option.none⟩

def MANAGER_INACTIVE : Finding :=
  ⟨"MANAGER_INACTIVE", "Manager \"{manager}\" is not active, but user is", .error, Option.none⟩
def MANAGER_INVALID : Finding :=
  ⟨"MANAGER_INVALID", "Manager \"{manager}\" not found in user list", .error, Option.none⟩
def MANAGER_MISSING : Finding :=
  ⟨"MANAGER_MISSING", "No manager", .warning, Option.none⟩

def FIRST_NAME_INVALID : Finding :=
  ⟨"FIRST_NAME_INVALID", "Invalid first name: \"{name}\"", .error, Option.none⟩
def FIRST_NAME_MISMATCH : Finding :=
  ⟨"FIRST_NAME_MISMATCH", "First name does not match between sources (source: \"{source_name}\", compare: \"{compare_name}\")", .warning, Option.none⟩
def FIRST_NAME_MISSING : Finding :=
  ⟨"FIRST_NAME_MISSING", "No first name found", .error, Option.none⟩
def LAST_NAME_INVALID : Finding :=
  ⟨"LAST_NAME_INVALID", "Invalid last name: \"{name}\"", .error, Option.none⟩
def LAST_NAME_MISMATCH : Finding :=
  ⟨"LAST_NAME_MISMATCH", "Last name does not match between sources (source: \"{source_name}\", compare: \"{compare_name}\")", .warning, Option.none⟩
def LAST_NAME_MISSING : Finding :=
  ⟨"LAST_NAME_MISSING", "No last name found", .error, Option.none⟩

def COMPARE_MISSING : Finding :=
  ⟨"COMPARE_MISSING", "Does not exist in the comparison data", .error, Option.none⟩
def SOURCE_MISSING : Finding :=
  ⟨"SOURCE_MISSING", "Not found in source of truth", .error, Option.none⟩
def SOURCE_MISSING_ACTIVE : Finding :=
  ⟨"SOURCE_MISSING_ACTIVE", "Not found in source of truth and is active", .error, Option.none⟩
def SOURCE_MISSING_DELETED : Finding :=
  ⟨"SOURCE_MISSING_DELETED", "Not found in source of truth and is deleted", .error, Option.none⟩
def SOURCE_MISSING_INACTIVE : Finding :=
  ⟨"SOURCE_MISSING_INACTIVE", "Not found in source of truth and is inactive", .error, Option.none⟩
def SOURCE_MISSING_SUSPENDED : Finding :=
  ⟨"SOURCE_MISSING_SUSPENDED", "Not found in source of truth and is suspended", .error, Option.none⟩
def SOURCE_MISSING_DEACTIVATED : Finding :=
  ⟨"SOURCE_MISSING_DEACTIVATED", "Not found in source of truth and is deactivated", .error, Option.none⟩
def SOURCE_MISSING_UNKNOWN : Finding :=
  ⟨"SOURCE_MISSING_UNKNOWN", "Not found in source of truth and status is unknown", .error, Option.none⟩
def STATUS_MISMATCH : Finding :=
  ⟨"STATUS_MISMATCH", "Status does not match between sources (source: \"{source_status}\", compare: \"{compare_status}\")", .error, Option.none⟩

def TITLE_INVALID : Finding :=
  ⟨"TITLE_INVALID", "Invalid title: {title}", .warning, Option.none⟩
def TITLE_MISMATCH : Finding :=
  ⟨"TITLE_MISMATCH", "Title does not match between sources (source: \"{source_title}\", compare: \"{compare_title}\")", .warning, Option.none⟩
def TITLE_MISSING : Finding :=
  ⟨"TITLE_MISSING", "No title", .warning, Option.none⟩

end FindingType

/-- Model of a Python datetime: the naive wall-clock reading in seconds
since 1970-01-01T00:00:00, plus an optional UTC offset in seconds (absent
for a naive datetime). -/
structure PyDateTime where
  clock : Int
  tz : Option Int
deriving DecidableEq, Repr

/-- Python equality on datetimes: two aware datetimes compare by instant,
two naive datetimes by wall clock, and a naive datetime never equals an
aware one. -/
def pyDateTimeEq (a b : PyDateTime) : Bool :=
  match a.tz, b.tz with
  | some x, some y => a.clock - x == b.clock - y
  | Option.none, Option.none => a.clock == b.clock
  | _, _ => false

/-- The sentinel instant for "never happened", NEVER_LOGGED_IN in
analysis/validation_helper.py: dateutil parse of 1970-01-01T00:00:00Z. -/
def NEVER_LOGGED_IN : PyDateTime := ⟨0, some 0⟩

/-- Model of ValidationHelper.has_date_value restricted to a datetime
argument: compare against the sentinel with its timezone replaced by the
timezone of the value (naive sentinel for a naive value). -/
def hasDateValueDt (value : PyDateTime) : Bool :=
  let never : PyDateTime :=
    match value.tz with
    | some t => { NEVER_LOGGED_IN with tz := some t }
    | Option.none => { NEVER_LOGGED_IN with tz := Option.none }
  !(pyDateTimeEq value never)

/-- A Python value as stored in a normalized record or produced by the
rule configuration. The conform step only ever produces str, bool, date
and none values; int, float, list and dict appear in the defensive
branches of the dynamic rule engine. -/
inductive Value where
  | none
  | str (s : String)
  | bool (b : Bool)
  | int (n : Int)
  | float (q : Rat)
  | date (d : PyDateTime)
  | list (xs : List Value)
  | dict (xs : List (String × Value))

mutual

/-- Python equality between values: the numeric tower identifies bool,
int and float; other types compare only with themselves. Dict equality is
modeled pairwise in order; dict values never occur in records produced by
normalization, so that branch is defensive dead code. -/
def pyEq : Value → Value → Bool
  | .none, .none => true
  | .str a, .str b => a == b
  | .bool a, .bool b => a == b
  | .bool a, .int n => (if a then (1 : Int) else 0) == n
  | .int n, .bool a => n == (if a then (1 : Int) else 0)
  | .bool a, .float q => (if a then (1 : Rat) else 0) == q
  | .float q, .bool a => q == (if a then (1 : Rat) else 0)
  | .int a, .int b => a == b
  | .int a, .float q => (a : Rat) == q
  | .float q, .int a => q == (a : Rat)
  | .float a, .float b => a == b
  | .date a, .date b => pyDateTimeEq a b
  | .list xs, .list ys => pyEqList xs ys
  | .dict xs, .dict ys => pyEqDict xs ys
  | _, _ => false

def pyEqList : List Value → List Value → Bool
  | [], [] => true
  | a :: as2, b :: bs2 => pyEq a b && pyEqList as2 bs2
  | _, _ => false

def pyEqDict : List (String × Value) → List (String × Value) → Bool
  | [], [] => true
  | a :: as2, b :: bs2 => a.1 == b.1 && pyEq a.2 b.2 && pyEqDict as2 bs2
  | _, _ => false

end

/-- Python truthiness of a value. -/
def pyTruthy : Value → Bool
  | .none => false
  | .str s => !(s.data.isEmpty)
  | .bool b => b
  | .int n => !(n == 0)
  | .float q => !(q == 0)
  | .date _ => true
  | .list xs => !(xs.isEmpty)
  | .dict xs => !(xs.isEmpty)

/-- ValidationHelper.has_date_value on an arbitrary value: false for
anything that is not a datetime, otherwise the sentinel comparison. -/
def hasDateValueV : Value → Bool
  | .date d => hasDateValueDt d
  | _ => false

/-- Python str() of a value, used when a value is substituted into a
finding message. Rendering of datetimes is delegated to the strDT
parameter since it is a library concern. -/
def pyStr (strDT : PyDateTime → String) : Value → String
  | .none => "None"
  | .str s => s
  | .bool b => if b then "True" else "False"
  | .int n => toString n
  | .float q => toString q
  | .date d => strDT d
  | .list _ => "<list>"
  | .dict _ => "<dict>"

/-- A normalized identity record: canonical field name to value, in
insertion order, modelling the Python dict built by load_csv. -/
abbrev Record := List (String × Value)

/-- Python dict get with default None on a record. -/
def recGet (r : Record) (k : String) : Value :=
  match r.find? (fun p => p.1 == k) with
  | some p => p.2
  | Option.none => Value.none

/-- The type of a canonical field in config/common_fields.py: a plain
string marker or a closed enumeration of literal values. -/
inductive FieldType where
  | str
  | email
  | name
  | date
  | bool
  | enum (values : List String)
deriving DecidableEq, Repr

/-- The canonical field set, from config/common_fields.py. -/
def common_fields : List (String × FieldType) :=
  [("user_id", .str),
   ("email", .email),
   ("first_name", .name),
   ("last_name", .name),
   ("department", .str),
   ("role", .str),
   ("title", .str),
   ("manager", .email),
   ("location", .str),
   ("last_login", .date),
   ("created_date", .date),
   ("end_date", .date),
   ("status", .enum ["active", "inactive", "suspended", "deactivated", "deleted", "unknown"]),
   ("type", .enum ["employee", "contractor", "intern", "vendor", "unknown"]),
   ("two_factor", .bool),
   ("user_type", .enum ["fte", "part-time", "contractor", "vendor", "unknown"]),
   ("privileged", .bool),
   ("sso", .bool),
   ("paid", .bool)]

/-- Default values for fields not present in the data source, from
config/common_fields.py. -/
def default_values : List (String × Value) :=
  [("status", .str "active"), ("paid", .bool true)]

/-- The declared enumeration values of the status field in the schema. -/
def statusEnumValues : List String :=
  match common_fields.find? (fun p => p.1 == "status") with
  | some (_, .enum vs) => vs
  | _ => []

/-- The run configuration attributes consumed by the embedded code:
the finding keys disabled for reporting and the approved email domains.
Their definition site is outside the engine; they are plain string lists. -/
structure Config where
  disable : List String
  domains : List String

/-- A loaded data source: name, resolved field mapping and normalized
users, from models/data_source.py. The findings dictionary is threaded
separately through the functions that mutate it. -/
structure Source where
  name : String
  mapping : List (String × String)
  users : List (String × Record)

/-- DataSource.has_field: the canonical field appears in the mapping. -/
def Source.hasField (src : Source) (field : String) : Bool :=
  src.mapping.any (fun p => p.1 == field)

/-- Lookup of a user record by user id, defaulting to the empty record. -/
def usersGet (src : Source) (uid : String) : Record :=
  match src.users.find? (fun p => p.1 == uid) with
  | some p => p.2
  | Option.none => []

/-- Membership of a user id in the users dictionary. -/
def userMem (src : Source) (uid : String) : Bool :=
  src.users.any (fun p => p.1 == uid)

/-- The findings dictionary of a source: user id to the ordered list of
bound findings recorded against it. -/
abbrev FindMap := List (String × List Finding)

/-- Lookup of the findings recorded for a user id, empty when absent. -/
def lookupF (fs : FindMap) (uid : String) : List Finding :=
  match fs.find? (fun p => p.1 == uid) with
  | some p => p.2
  | Option.none => []

/-- Membership of a user id in the findings dictionary. -/
def containsKeyF (fs : FindMap) (uid : String) : Bool :=
  fs.any (fun p => p.1 == uid)

/-- Append a bound finding to the list stored under a user id, leaving
every other entry unchanged (a dict holds one entry per key). -/
def appendAtF : FindMap → String → Finding → FindMap
  | [], _, _ => []
  | p :: rest, uid, g =>
    if p.1 == uid then (p.1, p.2 ++ [g]) :: appendAtF rest uid g
    else p :: appendAtF rest uid g

/-- DataSource.add_finding from models/data_source.py: a finding whose
key is in the disable list is dropped before any state is touched;
otherwise an empty entry is created for a new user id and the bound
finding appended. A KeyError raised while binding the finding propagates
after the empty entry was created, matching the Python statement order. -/
def addFinding (cfg : Config) (fs : FindMap) (uid : String) (f : Finding)
    (kw : List (String × String)) : FindMap × Option PyErr :=
  if cfg.disable.contains f.key then (fs, Option.none)
  else
    let fs2 := if containsKeyF fs uid then fs else fs ++ [(uid, [])]
    match f.call kw with
    | .ok g => (appendAtF fs2 uid g, Option.none)
    | .error e => (fs2, some e)

/-- Sequencing of finding-accumulating steps: an exception short-circuits
the rest of the statement sequence, keeping the state built so far. -/
def seqF (r : FindMap × Option PyErr) (k : FindMap → FindMap × Option PyErr) :
    FindMap × Option PyErr :=
  match r with
  | (fs, some e) => (fs, some e)
  | (fs, Option.none) => k fs

/-- The number of findings with a given key recorded for a user id. -/
def countK (fs : FindMap) (uid : String) (key : String) : Nat :=
  ((lookupF fs uid).filter (fun g => g.key == key)).length

/-- The apostrophe character, written via its code point. -/
def apos : Char := Char.ofNat 39

/-- Model of the anchored regex match for the email-shape pattern of
analysis/static_analysis.py and validation_helper.py (one or more non-at
characters, an at sign, one or more non-at characters, a literal dot, one
or more non-at characters; matched as a prefix of the value): the value
starts with a nonempty at-free run, then an at sign, and the following
at-free run contains a dot that is neither its first nor its last
character. -/
def emailShape (s : String) : Bool :=
  let cs := s.data
  let a := cs.takeWhile (fun c => !(c = '@'))
  if a.isEmpty then false
  else
    match cs.drop a.length with
    | [] => false
    | _ :: t =>
      let u := t.takeWhile (fun c => !(c = '@'))
      ((u.drop 1).dropLast).contains '.'

/-- ValidationHelper.is_valid_name, which agrees with the name regex of
analysis/static_analysis.py: nonempty, letter-led, and every character a
letter, whitespace, or one of dash, dot, comma, apostrophe, parentheses
and digits. Unicode letters are modeled by Char.isAlpha. -/
def is_valid_name (s : String) : Bool :=
  match s.data with
  | [] => false
  | c :: rest =>
    c.isAlpha && (c :: rest).all (fun x =>
      x.isAlpha || x.isWhitespace || x = '-' || x = '.' || x = ',' ||
      x = apos || x = '(' || x = ')' || x.isDigit)

/-- ValidationHelper.is_valid_email on a record value: falsy values are
invalid; a string is matched against the email-shape regex; a truthy
value of another type raises when handed to the regex engine. -/
def isValidEmailV (v : Value) : Except PyErr Bool :=
  match v with
  | .none => .ok false
  | .str s => .ok (!(s.data.isEmpty) && emailShape s)
  | .bool b => if b then .error .typeError else .ok false
  | .int n => if n == 0 then .ok false else .error .typeError
  | .float q => if q == 0 then .ok false else .error .typeError
  | .date _ => .error .typeError
  | .list xs => if xs.isEmpty then .ok false else .error .typeError
  | .dict xs => if xs.isEmpty then .ok false else .error .typeError

/-- ValidationHelper.is_valid_name on a record value: falsy values are
invalid; a string is checked by the name predicate; indexing a truthy
value of another type raises. -/
def isValidNameV (v : Value) : Except PyErr Bool :=
  match v with
  | .none => .ok false
  | .str s => .ok (is_valid_name s)
  | .bool b => if b then .error .typeError else .ok false
  | .int n => if n == 0 then .ok false else .error .typeError
  | .float q => if q == 0 then .ok false else .error .typeError
  | .date _ => .error .typeError
  | .list xs => if xs.isEmpty then .ok false else .error .attributeError
  | .dict xs => if xs.isEmpty then .ok false else .error (.keyError "0")

/-- Python str.split with a single-character separator, written over
character lists so that it evaluates in the kernel: the empty string
yields a single empty part, and each separator occurrence starts a new
part. -/
def splitOnChar (c : Char) : List Char → List String
  | [] => [""]
  | x :: rest =>
    let r := splitOnChar c rest
    if x = c then "" :: r
    else
      match r with
      | [] => [String.mk [x]]
      | h :: t => String.mk (x :: h.data) :: t

/-- Python list indexing, raising IndexError when out of range. -/
def pyIndex {α : Type} (xs : List α) (i : Nat) : Except PyErr α :=
  match xs.drop i with
  | [] => .error .indexError
  | x :: _ => .ok x

/-- DataSource.has_logged_in from models/data_source.py: a source with no
last_login mapping treats every record as logged in (the code comment
reads: no last login field, so we cannot check); otherwise the record is
logged in exactly when has_date_value accepts its last_login value. -/
def hasLoggedIn (src : Source) (user : Record) : Bool :=
  if !(src.hasField "last_login") then true
  else if !(hasDateValueV (recGet user "last_login")) then false
  else true

/-- Model of datetime.now(tz): the naive machine clock when tz is absent,
otherwise the aware current instant expressed at the given offset. -/
def pyNow (nowNaive nowInstant : Int) : Option Int → PyDateTime
  | Option.none => ⟨nowNaive, Option.none⟩
  | some off => ⟨nowInstant + off, some off⟩

/-- Subtraction of two datetimes in seconds; mixing a naive and an aware
datetime raises TypeError, as in Python. -/
def pySubSecs (a b : PyDateTime) : Except PyErr Int :=
  match a.tz, b.tz with
  | some x, some y => .ok ((a.clock - x) - (b.clock - y))
  | Option.none, Option.none => .ok (a.clock - b.clock)
  | _, _ => .error .typeError

/-- The user id value of a record, used as the findings key; user_id is a
str field present on every record produced by normalization. -/
def uidOf (user : Record) : String :=
  match recGet user "user_id" with
  | .str s => s
  | _ => ""

/-- The email checks of StaticAnalysis.validate for one record: empty
email gives EMAIL_MISSING, a non-matching shape gives EMAIL_INVALID, and
then, unconditionally, the value is split at the at sign and the second
component checked against the approved domains, giving DOMAIN_INVALID
when not approved. The split is executed for every mapped email, also
when the value is empty or contains no at sign, in which case list index
one does not exist and IndexError is raised. -/
def svEmail (cfg : Config) (src : Source) (uid : String) (user : Record)
    (fs : FindMap) : FindMap × Option PyErr :=
  if src.hasField "email" then
    let v := recGet user "email"
    seqF
      (if pyEq v Value.none || pyEq v (.str "") then
        addFinding cfg fs uid FindingType.EMAIL_MISSING []
      else
        match v with
        | .str s =>
          if !(emailShape s) then
            addFinding cfg fs uid FindingType.EMAIL_INVALID [("email", s)]
          else (fs, Option.none)
        | _ => (fs, some .typeError))
      (fun fs1 =>
        match v with
        | .str s =>
          match pyIndex (splitOnChar '@' s.data) 1 with
          | .error e => (fs1, some e)
          | .ok domain =>
            if !(cfg.domains.contains domain) then
              addFinding cfg fs1 uid FindingType.DOMAIN_INVALID [("domain", domain)]
            else (fs1, Option.none)
        | _ => (fs1, some .attributeError))
  else (fs, Option.none)

/-- The first-name and last-name checks of StaticAnalysis.validate,
shared between the two identically-structured blocks: empty value gives
the missing finding, a value failing the name pattern gives the invalid
finding. -/
def svNameCheck (cfg : Config) (src : Source) (uid : String) (user : Record)
    (field : String) (missingF invalidF : Finding) (fs : FindMap) :
    FindMap × Option PyErr :=
  if src.hasField field then
    let v := recGet user field
    if pyEq v Value.none || pyEq v (.str "") then
      addFinding cfg fs uid missingF []
    else
      match v with
      | .str s =>
        if !(is_valid_name s) then addFinding cfg fs uid invalidF [("name", s)]
        else (fs, Option.none)
      | _ => (fs, some .typeError)
  else (fs, Option.none)

/-- The manager checks of StaticAnalysis.validate: empty manager gives
MANAGER_MISSING, a manager id not among the users gives MANAGER_INVALID,
and a resolvable manager that is not logged in while the subject is gives
MANAGER_INACTIVE. A non-string manager value is simply never a key of the
users dictionary. -/
def svManager (cfg : Config) (src : Source) (strDT : PyDateTime → String)
    (uid : String) (user : Record) (fs : FindMap) : FindMap × Option PyErr :=
  if src.hasField "manager" then
    let m := recGet user "manager"
    if pyEq m (.str "") then addFinding cfg fs uid FindingType.MANAGER_MISSING []
    else
      match m with
      | .str ms =>
        if !(userMem src ms) then
          addFinding cfg fs uid FindingType.MANAGER_INVALID [("manager", ms)]
        else if !(hasLoggedIn src (usersGet src ms)) && hasLoggedIn src user then
          addFinding cfg fs uid FindingType.MANAGER_INACTIVE [("manager", ms)]
        else (fs, Option.none)
      | .list _ => (fs, some .typeError)
      | .dict _ => (fs, some .typeError)
      | other => addFinding cfg fs uid FindingType.MANAGER_INVALID
          [("manager", pyStr strDT other)]
  else (fs, Option.none)

/-- The login-recency check of StaticAnalysis.validate: a record that has
not logged in gives LOGIN_NEVER_AGED with the age in days measured from
now in the timezone of created_date when that field is mapped, otherwise
LOGIN_NEVER. -/
def svLogin (cfg : Config) (src : Source) (nowNaive nowInstant : Int)
    (uid : String) (user : Record) (fs : FindMap) : FindMap × Option PyErr :=
  if !(hasLoggedIn src user) then
    if src.hasField "created_date" then
      match recGet user "created_date" with
      | .date d =>
        match pySubSecs (pyNow nowNaive nowInstant d.tz) d with
        | .ok secs =>
          addFinding cfg fs uid FindingType.LOGIN_NEVER_AGED
            [("age", toString (Int.fdiv secs 86400))]
        | .error e => (fs, some e)
      | _ => (fs, some .attributeError)
    else addFinding cfg fs uid FindingType.LOGIN_NEVER []
  else (fs, Option.none)

/-- The privileged-flag check of StaticAnalysis.validate: a truthy
privileged value gives the compliance finding ACCESS_PRIVILEGED. -/
def svPrivileged (cfg : Config) (src : Source) (uid : String) (user : Record)
    (fs : FindMap) : FindMap × Option PyErr :=
  if src.hasField "privileged" then
    if pyTruthy (recGet user "privileged") then
      addFinding cfg fs uid FindingType.ACCESS_PRIVILEGED []
    else (fs, Option.none)
  else (fs, Option.none)

/-- All checks of StaticAnalysis.validate for one record, in statement
order; an exception raised by a check aborts the remaining checks. -/
def staticValidateUser (cfg : Config) (src : Source) (strDT : PyDateTime → String)
    (nowNaive nowInstant : Int) (user : Record) (fs : FindMap) :
    FindMap × Option PyErr :=
  let uid := uidOf user
  seqF (svEmail cfg src uid user fs) (fun fs1 =>
  seqF (svNameCheck cfg src uid user "first_name"
        FindingType.FIRST_NAME_MISSING FindingType.FIRST_NAME_INVALID fs1) (fun fs2 =>
  seqF (svNameCheck cfg src uid user "last_name"
        FindingType.LAST_NAME_MISSING FindingType.LAST_NAME_INVALID fs2) (fun fs3 =>
  seqF (svManager cfg src strDT uid user fs3) (fun fs4 =>
  seqF (svLogin cfg src nowNaive nowInstant uid user fs4) (fun fs5 =>
  svPrivileged cfg src uid user fs5)))))

/-- The user loop of StaticAnalysis.validate. -/
def staticValidateGo (cfg : Config) (src : Source) (strDT : PyDateTime → String)
    (nowNaive nowInstant : Int) : List (String × Record) → FindMap →
    FindMap × Option PyErr
  | [], fs => (fs, Option.none)
  | (_, user) :: rest, fs =>
    seqF (staticValidateUser cfg src strDT nowNaive nowInstant user fs)
      (staticValidateGo cfg src strDT nowNaive nowInstant rest)

/-- StaticAnalysis.validate from analysis/static_analysis.py: run every
check on every record of the source, accumulating findings; the final
state and the exception raised, if any. -/
def staticValidate (cfg : Config) (src : Source) (strDT : PyDateTime → String)
    (nowNaive nowInstant : Int) : FindMap × Option PyErr :=
  staticValidateGo cfg src strDT nowNaive nowInstant src.users []

/-- A comparison exception from the rule file: optional source-name allow
and deny lists, the field the pattern applies to, the pattern, and the
reason recorded when it matches, from dynamic_analysis.py. -/
structure CompException where
  only : Option (List String)
  skip : Option (List String)
  field : String
  pattern : String
  reason : String

/-- Whether an exception applies to the compare source: not skipped by
the only list (when present the name must be in it) nor by the skip list
(when present the name must not be in it). -/
def exApplicable (ex : CompException) (name : String) : Bool :=
  (match ex.only with
   | some l => l.contains name
   | Option.none => true) &&
  (match ex.skip with
   | some l => !(l.contains name)
   | Option.none => true)

/-- The exception loop of DynamicAnalysis.compare for a user missing from
the source of truth: exceptions are evaluated in declared order; the
first applicable exception whose pattern matches (start-anchored, via the
reM parameter) the value of its field on the compare record returns its
reason and stops; matching a non-string value raises. -/
def firstMatchingException (reM : String → String → Bool) (name : String)
    (rec : Record) : List CompException → Except PyErr (Option String)
  | [] => .ok Option.none
  | ex :: rest =>
    if !(exApplicable ex name) then firstMatchingException reM name rec rest
    else
      match recGet rec ex.field with
      | .str s =>
        if reM ex.pattern s then .ok (some ex.reason)
        else firstMatchingException reM name rec rest
      | _ => .error .typeError

/-- The missing-user branch of DynamicAnalysis.compare: a matching
exception documents the user with DOCUMENTED_EXCEPTION; otherwise the
status value selects one of the five status-specific missing findings,
falling back to the generic SOURCE_MISSING. -/
def compareMissingUser (cfg : Config) (reM : String → String → Bool)
    (exs : List CompException) (cmp : Source) (uid : String) (fs : FindMap) :
    FindMap × Option PyErr :=
  let urec := usersGet cmp uid
  match firstMatchingException reM cmp.name urec exs with
  | .error e => (fs, some e)
  | .ok (some reason) =>
    addFinding cfg fs uid FindingType.DOCUMENTED_EXCEPTION [("reason", reason)]
  | .ok Option.none =>
    let st := recGet urec "status"
    if pyEq st (.str "active") then
      addFinding cfg fs uid FindingType.SOURCE_MISSING_ACTIVE []
    else if pyEq st (.str "inactive") then
      addFinding cfg fs uid FindingType.SOURCE_MISSING_INACTIVE []
    else if pyEq st (.str "suspended") then
      addFinding cfg fs uid FindingType.SOURCE_MISSING_SUSPENDED []
    else if pyEq st (.str "deleted") then
      addFinding cfg fs uid FindingType.SOURCE_MISSING_DELETED []
    else if pyEq st (.str "unknown") then
      addFinding cfg fs uid FindingType.SOURCE_MISSING_UNKNOWN []
    else
      addFinding cfg fs uid FindingType.SOURCE_MISSING []

/-- DynamicAnalysis.field_supported: the field is mapped on both sides. -/
def fieldSupported (src cmp : Source) (field : String) : Bool :=
  src.hasField field && cmp.hasField field

/-- DynamicAnalysis.field_only_in_compare. -/
def fieldOnlyInCompare (src cmp : Source) (field : String) : Bool :=
  !(src.hasField field) && cmp.hasField field

/-- DynamicAnalysis.fields_differ: an unmapped field never differs;
otherwise the canonical values are compared for inequality. -/
def fieldsDiffer (src cmp : Source) (uid field : String) : Bool :=
  if !(fieldSupported src cmp field) then false
  else !(pyEq (recGet (usersGet src uid) field) (recGet (usersGet cmp uid) field))

/-- The status block of the present-user branch of compare. The keyword
values are rendered with str as Python format does. -/
def cmpStatusStep (cfg : Config) (strDT : PyDateTime → String) (src cmp : Source)
    (uid : String) (fs : FindMap) : FindMap × Option PyErr :=
  if fieldsDiffer src cmp uid "status" then
    addFinding cfg fs uid FindingType.STATUS_MISMATCH
      [("source_status", pyStr strDT (recGet (usersGet src uid) "status")),
       ("compare_status", pyStr strDT (recGet (usersGet cmp uid) "status"))]
  else (fs, Option.none)

/-- The first-name block of the present-user branch of compare: mismatch
when mapped on both sides and different; otherwise, when mapped only on
the compare side, the static-style missing and invalid checks. -/
def cmpFirstNameStep (cfg : Config) (strDT : PyDateTime → String) (src cmp : Source)
    (uid : String) (fs : FindMap) : FindMap × Option PyErr :=
  if fieldsDiffer src cmp uid "first_name" then
    addFinding cfg fs uid FindingType.FIRST_NAME_MISMATCH
      [("source_name", pyStr strDT (recGet (usersGet src uid) "first_name")),
       ("compare_name", pyStr strDT (recGet (usersGet cmp uid) "first_name"))]
  else if fieldOnlyInCompare src cmp "first_name" then
    if pyEq (recGet (usersGet cmp uid) "first_name") (.str "") then
      addFinding cfg fs uid FindingType.FIRST_NAME_MISSING []
    else
      match isValidNameV (recGet (usersGet cmp uid) "first_name") with
      | .error e => (fs, some e)
      | .ok ok =>
        if !ok then
          addFinding cfg fs uid FindingType.FIRST_NAME_INVALID
            [("name", pyStr strDT (recGet (usersGet cmp uid) "first_name"))]
        else (fs, Option.none)
  else (fs, Option.none)

/-- The last-name block of the present-user branch of compare. -/
def cmpLastNameStep (cfg : Config) (strDT : PyDateTime → String) (src cmp : Source)
    (uid : String) (fs : FindMap) : FindMap × Option PyErr :=
  if fieldsDiffer src cmp uid "last_name" then
    addFinding cfg fs uid FindingType.LAST_NAME_MISMATCH
      [("source_name", pyStr strDT (recGet (usersGet src uid) "last_name")),
       ("compare_name", pyStr strDT (recGet (usersGet cmp uid) "last_name"))]
  else if fieldOnlyInCompare src cmp "last_name" then
    if pyEq (recGet (usersGet cmp uid) "last_name") (.str "") then
      addFinding cfg fs uid FindingType.LAST_NAME_MISSING []
    else
      match isValidNameV (recGet (usersGet cmp uid) "last_name") with
      | .error e => (fs, some e)
      | .ok ok =>
        if !ok then
          addFinding cfg fs uid FindingType.LAST_NAME_INVALID
            [("name", pyStr strDT (recGet (usersGet cmp uid) "last_name"))]
        else (fs, Option.none)
  else (fs, Option.none)

/-- The email block of the present-user branch of compare. -/
def cmpEmailStep (cfg : Config) (strDT : PyDateTime → String) (src cmp : Source)
    (uid : String) (fs : FindMap) : FindMap × Option PyErr :=
  if fieldsDiffer src cmp uid "email" then
    addFinding cfg fs uid FindingType.EMAIL_MISMATCH
      [("source_email", pyStr strDT (recGet (usersGet src uid) "email")),
       ("compare_email", pyStr strDT (recGet (usersGet cmp uid) "email"))]
  else if fieldOnlyInCompare src cmp "email" then
    if pyEq (recGet (usersGet cmp uid) "email") (.str "") then
      addFinding cfg fs uid FindingType.EMAIL_MISSING []
    else
      match isValidEmailV (recGet (usersGet cmp uid) "email") with
      | .error e => (fs, some e)
      | .ok ok =>
        if !ok then
          addFinding cfg fs uid FindingType.EMAIL_INVALID
            [("email", pyStr strDT (recGet (usersGet cmp uid) "email"))]
        else (fs, Option.none)
  else (fs, Option.none)

/-- The domain block of the present-user branch of compare: when email is
mapped on both sides, both domain portions (the second component of the
split at the at sign) are computed and DOMAIN_MISMATCH emitted when they
differ, independently of the email block above. -/
def cmpDomainStep (cfg : Config) (src cmp : Source) (uid : String) (fs : FindMap) :
    FindMap × Option PyErr :=
  if fieldSupported src cmp "email" then
    match recGet (usersGet src uid) "email" with
    | .str se =>
      (match recGet (usersGet cmp uid) "email" with
       | .str ce =>
         (match pyIndex (splitOnChar '@' se.data) 1 with
          | .error e => (fs, some e)
          | .ok sd =>
            match pyIndex (splitOnChar '@' ce.data) 1 with
            | .error e => (fs, some e)
            | .ok cd =>
              if !(sd == cd) then
                addFinding cfg fs uid FindingType.DOMAIN_MISMATCH
                  [("domain", sd), ("compare_domain", cd)]
              else (fs, Option.none))
       | _ => (fs, some .attributeError))
    | _ => (fs, some .attributeError)
  else (fs, Option.none)

/-- The department block of the present-user branch of compare. -/
def cmpDeptStep (cfg : Config) (strDT : PyDateTime → String) (src cmp : Source)
    (uid : String) (fs : FindMap) : FindMap × Option PyErr :=
  if fieldsDiffer src cmp uid "department" then
    addFinding cfg fs uid FindingType.DEPT_MISMATCH
      [("source_dept", pyStr strDT (recGet (usersGet src uid) "department")),
       ("compare_dept", pyStr strDT (recGet (usersGet cmp uid) "department"))]
  else (fs, Option.none)

/-- The location block of the present-user branch of compare. -/
def cmpLocationStep (cfg : Config) (strDT : PyDateTime → String) (src cmp : Source)
    (uid : String) (fs : FindMap) : FindMap × Option PyErr :=
  if fieldsDiffer src cmp uid "location" then
    addFinding cfg fs uid FindingType.LOCATION_MISMATCH
      [("source_location", pyStr strDT (recGet (usersGet src uid) "location")),
       ("compare_location", pyStr strDT (recGet (usersGet cmp uid) "location"))]
  else (fs, Option.none)

/-- The title block of the present-user branch of compare. -/
def cmpTitleStep (cfg : Config) (strDT : PyDateTime → String) (src cmp : Source)
    (uid : String) (fs : FindMap) : FindMap × Option PyErr :=
  if fieldsDiffer src cmp uid "title" then
    addFinding cfg fs uid FindingType.TITLE_MISMATCH
      [("source_title", pyStr strDT (recGet (usersGet src uid) "title")),
       ("compare_title", pyStr strDT (recGet (usersGet cmp uid) "title"))]
  else (fs, Option.none)

/-- The present-user branch of DynamicAnalysis.compare, in statement
order. -/
def comparePresentUser (cfg : Config) (strDT : PyDateTime → String)
    (src cmp : Source) (uid : String) (fs : FindMap) : FindMap × Option PyErr :=
  seqF (cmpStatusStep cfg strDT src cmp uid fs) (fun fs1 =>
  seqF (cmpFirstNameStep cfg strDT src cmp uid fs1) (fun fs2 =>
  seqF (cmpLastNameStep cfg strDT src cmp uid fs2) (fun fs3 =>
  seqF (cmpEmailStep cfg strDT src cmp uid fs3) (fun fs4 =>
  seqF (cmpDomainStep cfg src cmp uid fs4) (fun fs5 =>
  seqF (cmpDeptStep cfg strDT src cmp uid fs5) (fun fs6 =>
  seqF (cmpLocationStep cfg strDT src cmp uid fs6) (fun fs7 =>
  cmpTitleStep cfg strDT src cmp uid fs7)))))))

/-- One iteration of the compare loop: the missing branch for a user
absent from the source of truth, the present branch otherwise. -/
def compareUser (cfg : Config) (reM : String → String → Bool)
    (strDT : PyDateTime → String) (exs : List CompException)
    (src cmp : Source) (uid : String) (fs : FindMap) : FindMap × Option PyErr :=
  if !(userMem src uid) then compareMissingUser cfg reM exs cmp uid fs
  else comparePresentUser cfg strDT src cmp uid fs

/-- The user loop of DynamicAnalysis.compare. -/
def compareGo (cfg : Config) (reM : String → String → Bool)
    (strDT : PyDateTime → String) (exs : List CompException) (src cmp : Source) :
    List (String × Record) → FindMap → FindMap × Option PyErr
  | [], fs => (fs, Option.none)
  | (uid, _) :: rest, fs =>
    seqF (compareUser cfg reM strDT exs src cmp uid fs)
      (compareGo cfg reM strDT exs src cmp rest)

/-- DynamicAnalysis.compare from dynamic_analysis.py over the users of
the compare source. -/
def compare2 (cfg : Config) (reM : String → String → Bool)
    (strDT : PyDateTime → String) (exs : List CompException) (src cmp : Source) :
    FindMap × Option PyErr :=
  compareGo cfg reM strDT exs src cmp cmp.users []

/-- A dynamic validation rule from the rule file, consumed by
DynamicAnalysis.validate: the target field, the skip-empty flag, the
optional pre-transform, the trigger name with its operands, and the
finding identity to emit. -/
structure DynRule where
  field : String
  skipEmpty : Bool
  operation : Option String
  trigger : Option String
  value : Value
  regex : Option String
  values : Option (List Value)
  name : String
  reason : String
  severity : Severity

/-- The skip-empty test of DynamicAnalysis.validate. The Python source
tests isinstance in the order datetime, str, int, float, bool, list,
dict, None; since a Python bool is an instance of int and False equals
zero, a false boolean is skipped at the int branch, and the net effect is
this per-type emptiness test. -/
def skipEmptyCheck : Value → Bool
  | .date d => !(hasDateValueDt d)
  | .str s => s.trim == ""
  | .bool b => b == false
  | .int n => n == 0
  | .float q => q == 0
  | .list xs => xs.isEmpty
  | .dict xs => xs.isEmpty
  | .none => true

/-- The days_since pre-transform: the day count of the difference between
the naive current time and the stored datetime; subtracting an aware
datetime from the naive now, or a value that is not a datetime at all,
raises TypeError. -/
def daysSince (nowNaive : Int) : Value → Except PyErr Value
  | .date d =>
    match d.tz with
    | Option.none => .ok (.int (Int.fdiv (nowNaive - d.clock) 86400))
    | some _ => .error .typeError
  | _ => .error .typeError

/-- A numeric view of a value for Python comparisons: bool, int and float
share the numeric tower. -/
def asRat : Value → Option Rat
  | .bool b => some (if b then 1 else 0)
  | .int n => some (n : Rat)
  | .float q => some q
  | _ => Option.none

/-- Python ordering comparison between two values: numbers, strings and
datetimes of equal awareness compare; everything else raises TypeError.
Container comparisons do not occur in this engine and are folded into the
TypeError branch. -/
def pyCmp (a b : Value) : Except PyErr Ordering :=
  match asRat a, asRat b with
  | some x, some y => .ok (compare x y)
  | _, _ =>
    match a, b with
    | .str x, .str y => .ok (compare x y)
    | .date x, .date y =>
      (match x.tz, y.tz with
       | some tx, some ty => .ok (compare (x.clock - tx) (y.clock - ty))
       | Option.none, Option.none => .ok (compare x.clock y.clock)
       | _, _ => .error .typeError)
    | _, _ => .error .typeError

/-- Python strict greater-than. -/
def pyGt (a b : Value) : Except PyErr Bool :=
  (pyCmp a b).map (fun o => o == Ordering.gt)

/-- Python strict less-than. -/
def pyLt (a b : Value) : Except PyErr Bool :=
  (pyCmp a b).map (fun o => o == Ordering.lt)

/-- Python substring membership for strings. -/
def strContains (hay needle : String) : Bool :=
  needle.isEmpty || (hay.splitOn needle).length > 1

/-- The trigger dispatch of DynamicAnalysis.validate: exactly the elif
chain of the source; a trigger whose comparison is false falls through
the remaining branches without matching any other trigger name, so the
chain is equivalent to dispatching on the trigger name. Case-insensitive
variants use casefold, modeled by toLower. -/
def evalTrigger (reM : String → String → Bool) (strDT : PyDateTime → String)
    (rule : DynRule) (v : Value) : Except PyErr Bool :=
  if rule.trigger == some "greater_than" then pyGt v rule.value
  else if rule.trigger == some "less_than" then pyLt v rule.value
  else if rule.trigger == some "equal_to" then .ok (pyEq v rule.value)
  else if rule.trigger == some "not_equal_to" then .ok (!(pyEq v rule.value))
  else if rule.trigger == some "equal_to_case" then
    .ok ((pyStr strDT v).toLower == (pyStr strDT rule.value).toLower)
  else if rule.trigger == some "not_equal_to_case" then
    .ok (!((pyStr strDT v).toLower == (pyStr strDT rule.value).toLower))
  else if rule.trigger == some "contains" then
    .ok (strContains ((pyStr strDT v).toLower) ((pyStr strDT rule.value).toLower))
  else if rule.trigger == some "not_contains" then
    .ok (!(strContains ((pyStr strDT v).toLower) ((pyStr strDT rule.value).toLower)))
  else if rule.trigger == some "starts_with" then
    .ok ((pyStr strDT v).startsWith (pyStr strDT rule.value))
  else if rule.trigger == some "ends_with" then
    .ok ((pyStr strDT v).endsWith (pyStr strDT rule.value))
  else if rule.trigger == some "starts_with_case" then
    .ok (((pyStr strDT v).toLower).startsWith ((pyStr strDT rule.value).toLower))
  else if rule.trigger == some "ends_with_case" then
    .ok (((pyStr strDT v).toLower).endsWith ((pyStr strDT rule.value).toLower))
  else if rule.trigger == some "matches" then
    (match rule.regex with
     | some p => .ok (reM p (pyStr strDT v))
     | Option.none => .error .typeError)
  else if rule.trigger == some "not_matches" then
    (match rule.regex with
     | some p => .ok (!(reM p (pyStr strDT v)))
     | Option.none => .error .typeError)
  else if rule.trigger == some "in" then
    (match rule.values with
     | some vs => .ok (vs.any (fun w => pyEq v w))
     | Option.none => .error .typeError)
  else if rule.trigger == some "not_in" then
    (match rule.values with
     | some vs => .ok (!(vs.any (fun w => pyEq v w)))
     | Option.none => .error .typeError)
  else if rule.trigger == some "is_true" then
    .ok (match v with | .bool b => b | _ => false)
  else if rule.trigger == some "is_false" then
    .ok (match v with | .bool b => !b | _ => false)
  else if rule.trigger == some "is_none" then
    .ok (match v with | .none => true | _ => false)
  else if rule.trigger == some "is_not_none" then
    .ok (match v with | .none => false | _ => true)
  else .ok false

/-- One record under one rule in DynamicAnalysis.validate: fetch the
field value; when skip-empty is set and the value is empty the record is
skipped before any trigger is evaluated; otherwise apply the optional
days_since transform, evaluate the trigger, and on a trigger emit the
rule finding with the transformed value bound as the value parameter. -/
def dynValidateUser (cfg : Config) (reM : String → String → Bool)
    (strDT : PyDateTime → String) (nowNaive : Int) (rule : DynRule)
    (uid : String) (rec : Record) (fs : FindMap) : FindMap × Option PyErr :=
  let value := recGet rec rule.field
  if rule.skipEmpty && skipEmptyCheck value then (fs, Option.none)
  else
    match (if rule.operation == some "days_since" then daysSince nowNaive value
           else .ok value) with
    | .error e => (fs, some e)
    | .ok v2 =>
      match evalTrigger reM strDT rule v2 with
      | .error e => (fs, some e)
      | .ok true =>
        addFinding cfg fs uid ⟨rule.name, rule.reason, rule.severity, Option.none⟩
          [("value", pyStr strDT v2)]
      | .ok false => (fs, Option.none)

/-- The user loop for one rule in DynamicAnalysis.validate. -/
def dynValidateRuleGo (cfg : Config) (reM : String → String → Bool)
    (strDT : PyDateTime → String) (nowNaive : Int) (rule : DynRule) :
    List (String × Record) → FindMap → FindMap × Option PyErr
  | [], fs => (fs, Option.none)
  | (uid, rec) :: rest, fs =>
    seqF (dynValidateUser cfg reM strDT nowNaive rule uid rec fs)
      (dynValidateRuleGo cfg reM strDT nowNaive rule rest)

/-- One rule in DynamicAnalysis.validate: skipped entirely when its field
is not mapped on the source. -/
def dynValidateRule (cfg : Config) (reM : String → String → Bool)
    (strDT : PyDateTime → String) (nowNaive : Int) (cmp : Source)
    (rule : DynRule) (fs : FindMap) : FindMap × Option PyErr :=
  if !(cmp.hasField rule.field) then (fs, Option.none)
  else dynValidateRuleGo cfg reM strDT nowNaive rule cmp.users fs

/-- DynamicAnalysis.validate over the declared rule list. -/
def dynValidate (cfg : Config) (reM : String → String → Bool)
    (strDT : PyDateTime → String) (nowNaive : Int) (cmp : Source) :
    List DynRule → FindMap → FindMap × Option PyErr
  | [], fs => (fs, Option.none)
  | rule :: rest, fs =>
    seqF (dynValidateRule cfg reM strDT nowNaive cmp rule fs)
      (dynValidate cfg reM strDT nowNaive cmp rest)

/-- DataSource.conform from models/data_source.py on the raw string value
of a mapped column (load_csv raises before conform when the column value
is absent, so the value handed over is a string): enumeration fields
require one of the declared literals, date fields map the empty string to
the never-logged-in sentinel and otherwise parse (parseDate abstracts the
dateutil parser, none meaning a parse failure), name fields casefold
(modeled by toLower), bool fields accept the six literal forms case
insensitively, and any other field keeps the string. -/
def conform (parseDate : String → Option PyDateTime) (value : String)
    (field : String) : Except PyErr Value :=
  match common_fields.find? (fun p => p.1 == field) with
  | Option.none =>
    .error (.valueError ("Field \"" ++ field ++ "\" not found in common fields for field \"" ++ field ++ "\""))
  | some (_, ty) =>
    match ty with
    | .enum vs =>
      if vs.contains value then .ok (.str value)
      else .error (.valueError ("Value \"" ++ value ++ "\" not in allowed values for field \"" ++ field ++ "\""))
    | .date =>
      if value == "" then .ok (.date NEVER_LOGGED_IN)
      else
        (match parseDate value with
         | some d => .ok (.date d)
         | Option.none =>
           .error (.valueError ("Value \"" ++ value ++ "\" is not a valid date for field \"" ++ field ++ "\"")))
    | .name => .ok (.str value.toLower)
    | .bool =>
      let lv := value.toLower
      if lv == "true" || lv == "false" then .ok (.bool (lv == "true"))
      else if lv == "yes" || lv == "no" then .ok (.bool (lv == "yes"))
      else if lv == "1" || lv == "0" then .ok (.bool (lv == "1"))
      else .error (.valueError ("Value \"" ++ value ++ "\" is not a valid boolean for field \"" ++ field ++ "\""))
    | _ => .ok (.str value)

/-- The regex resolution pass at the start of load_csv: every mapping
value is matched (as a regex, via the reMatch parameter) against the
headers and replaced by the first matching header; a value matching no
header is kept. The Python code performs this by mutating the stored
mapping in place, once, before row processing, which caches the
resolution for the remainder of the load. -/
def resolveMapping (reMatch : String → String → Bool) (headers : List String)
    (mapping : List (String × String)) : List (String × String) :=
  mapping.map (fun p =>
    match headers.find? (fun h => reMatch p.2 h) with
    | some h => (p.1, h)
    | Option.none => p)

/-- A raw CSV row as handed over by the dict reader: header to value. -/
abbrev RawRow := List (String × String)

/-- Column access on a raw row. -/
def rowGet (row : RawRow) (col : String) : Option String :=
  (row.find? (fun p => p.1 == col)).map (fun p => p.2)

/-- The rewrite loop of load_csv for one field value: ordered
replacement-to-pattern pairs; a pattern of None matches only the empty
value (else semantics); otherwise the pattern is matched as a regex and
the replacement expanded with the captures via the reMatchExpand
parameter (pattern, template, value; none when the pattern does not
match). The first matching pair wins; when none match the value is
unchanged. -/
def applyRewrite (reMatchExpand : String → String → String → Option String) :
    List (String × Option String) → String → String
  | [], v => v
  | (dst, Option.none) :: rest, v =>
    if v == "" then dst else applyRewrite reMatchExpand rest v
  | (dst, some pat) :: rest, v =>
    match reMatchExpand pat dst v with
    | some out => out
    | Option.none => applyRewrite reMatchExpand rest v

/-- The rewrite lookup for one field of one row: when the field has a
configured rewrite table, run it on the raw value, else keep the value. -/
def rewriteValue (reMatchExpand : String → String → String → Option String)
    (rewrite : List (String × List (String × Option String))) (k raw : String) :
    String :=
  match rewrite.find? (fun p => p.1 == k) with
  | some p => applyRewrite reMatchExpand p.2 raw
  | Option.none => raw

/-- The per-row field loop of load_csv: for each mapped field in mapping
order, fetch the resolved column (a missing column is fatal), apply the
field rewrite rules when configured, and conform the value. -/
def buildLine (parseDate : String → Option PyDateTime)
    (reMatchExpand : String → String → String → Option String)
    (rewrite : List (String × List (String × Option String))) (row : RawRow) :
    List (String × String) → Except PyErr Record
  | [] => .ok []
  | (k, v) :: rest =>
    match rowGet row v with
    | Option.none => .error (.valueError ("Field \"" ++ v ++ "\" not found in CSV file"))
    | some raw =>
      match conform parseDate (rewriteValue reMatchExpand rewrite k raw) k with
      | .error e => .error e
      | .ok val =>
        (buildLine parseDate reMatchExpand rewrite row rest).map
          (fun line => (k, val) :: line)

/-- The default-population pass of load_csv, executed after the duplicate
check: every field with a declared default that is not already a key of
the line is appended with its default value. -/
def addDefaults (line : Record) : Record :=
  default_values.foldl
    (fun l p => if l.any (fun q => q.1 == p.1) then l else l ++ [(p.1, p.2)]) line

/-- The final pass of load_csv: every canonical field still missing from
the line is appended with the value None. -/
def addMissingNone (line : Record) : Record :=
  common_fields.foldl
    (fun l p => if l.any (fun q => q.1 == p.1) then l else l ++ [(p.1, Value.none)])
    line

/-- The row loop of load_csv: build the line for each row, reject a
duplicate user id (before defaults are populated), then populate defaults
and fill the remaining canonical fields with None, keying the record by
its user id. A row whose line lacks the user_id key raises KeyError. -/
def loadRowsGo (parseDate : String → Option PyDateTime)
    (reMatchExpand : String → String → String → Option String)
    (mapping : List (String × String))
    (rewrite : List (String × List (String × Option String))) :
    List RawRow → List (String × Record) → Except PyErr (List (String × Record))
  | [], data => .ok data
  | row :: rest, data =>
    match buildLine parseDate reMatchExpand rewrite row mapping with
    | .error e => .error e
    | .ok line =>
      match line.find? (fun p => p.1 == "user_id") with
      | Option.none => .error (.keyError "user_id")
      | some p =>
        match p.2 with
        | .str uid =>
          if data.any (fun q => q.1 == uid) then
            .error (.valueError ("Duplicate user ID \"" ++ uid ++ "\" found in CSV file"))
          else
            loadRowsGo parseDate reMatchExpand mapping rewrite rest
              (data ++ [(uid, addMissingNone (addDefaults line))])
        | _ => .error .typeError

/-- load_csv from models/data_source.py after the file read and the row
skipping: resolve the mapping against the headers once (the resolution is
stored back into the data source and so cached for the remainder of the
load), then process every row with the resolved mapping. The result pairs
the mutated mapping with the load outcome; the Python wrapper re-raises
any error as a ValueError naming the file path, which is not modeled. -/
def load_csv (parseDate : String → Option PyDateTime)
    (reMatch : String → String → Bool)
    (reMatchExpand : String → String → String → Option String)
    (headers : List String) (rows : List RawRow)
    (mapping : List (String × String))
    (rewrite : List (String × List (String × Option String))) :
    (List (String × String)) × Except PyErr (List (String × Record)) :=
  let rm := resolveMapping reMatch headers mapping
  (rm, loadRowsGo parseDate reMatchExpand rm rewrite rows [])

/-- A concrete source whose mapping has no last_login entry, used to
exercise has_logged_in. -/
def srcC2 : Source :=
  ⟨"hr", [("user_id", "id")], [("u1", [("user_id", Value.str "u1")])]⟩

/-- The record of the single user of srcC2. -/
def recC2 : Record := [("user_id", Value.str "u1")]

/-- A concrete dynamic rule with skip-empty set on a boolean field whose
trigger would fire on false if the record were not skipped. -/
def ruleC9 : DynRule :=
  ⟨"privileged", true, Option.none, some "is_false", Value.none,
   Option.none, Option.none, "PRIVILEGED_OFF", "privileged flag is off", .warning⟩

/-- A comparison exception that the exception loop passes over without
matching and without raising: either it does not apply to the source
name, or its field value on the record is a string that the pattern does
not match. -/
def exSkipped (reM : String → String → Bool) (name : String) (rec2 : Record)
    (ex : CompException) : Bool :=
  !(exApplicable ex name) ||
  (match recGet rec2 ex.field with
   | .str s => !(reM ex.pattern s)
   | _ => false)

/-- A compare source with a single user whose status is suspended. -/
def srcC4susp : Source :=
  ⟨"okta", [("user_id", "id"), ("status", "st")],
   [("u1", [("user_id", Value.str "u1"), ("status", Value.str "suspended")])]⟩

/-- A compare source with a single user whose status is deactivated, a
value of the declared status enumeration. -/
def srcC4deact : Source :=
  ⟨"okta", [("user_id", "id"), ("status", "st")],
   [("u1", [("user_id", Value.str "u1"), ("status", Value.str "deactivated")])]⟩

/-- The documented exception of the specification example: pattern over
user_id with no only or skip list. -/
def exC6 : CompException :=
  ⟨Option.none, Option.none, "user_id", "^contractor-.*$", "documented contractor"⟩

/-- A compare source containing only the contractor user of the
specification example. -/
def srcC6 : Source :=
  ⟨"okta", [("user_id", "id")],
   [("contractor-42", [("user_id", Value.str "contractor-42")])]⟩

/-- A start-anchored matcher for the one pattern of the C6 example,
written over character lists so that it evaluates in the kernel. -/
def reMC6 (p s : String) : Bool :=
  (p == "^contractor-.*$") && List.isPrefixOf "contractor-".data s.data

/-- Uppercasing character by character, used to state the relation
between a status literal and its status-specific finding key. -/
def strUpper (s : String) : String := String.mk (s.data.map Char.toUpper)

/-- The configuration for the C1 evaluation: nothing disabled, one
approved domain. -/
def cfgC1 : Config := ⟨[], ["example.com"]⟩

/-- The record of the single user of srcC1: a mapped email whose value is
the empty string. -/
def recC1 : Record := [("user_id", Value.str "u1"), ("email", Value.str "")]

/-- A source with email mapped and one user whose email is empty. -/
def srcC1 : Source := ⟨"hr", [("user_id", "id"), ("email", "mail")], [("u1", recC1)]⟩

/-- Whether a value has the canonical shape for a field type: string-like
fields hold strings (enumeration values among the declared literals),
date fields hold datetimes, bool fields hold booleans. -/
def typeOkV : FieldType → Value → Bool
  | .str, .str _ => true
  | .email, .str _ => true
  | .name, .str _ => true
  | .date, .date _ => true
  | .bool, .bool _ => true
  | .enum vs, .str s => vs.contains s
  | _, _ => false

/-- Field types whose canonical value is a string. -/
def strTyped : FieldType → Bool
  | .str => true
  | .email => true
  | .name => true
  | .enum _ => true
  | _ => false

/-- The invariant normalization establishes for a record of a source:
every mapped canonical field holds a value of its canonical shape; an
unmapped field holds its declared default when one exists and None
otherwise. -/
def normalizedRec (mapping : List (String × String)) (rec2 : Record) : Bool :=
  common_fields.all (fun p =>
    if mapping.any (fun q => q.1 == p.1) then typeOkV p.2 (recGet rec2 p.1)
    else
      match default_values.find? (fun q => q.1 == p.1) with
      | some d => pyEq (recGet rec2 p.1) d.2
      | Option.none =>
        match recGet rec2 p.1 with
        | .none => true
        | _ => false)

/-- The configuration for the C7 evaluation: nothing disabled. -/
def cfgC7 : Config := ⟨[], []⟩

/-- Source of truth for the C7 evaluation: email mapped, one user whose
email is a@x.com. -/
def srcC7 : Source :=
  ⟨"hr", [("email", "Email")],
   [("u1", [("email", Value.str "a@x.com")])]⟩

/-- Compare source for the C7 evaluation: email mapped, the same user
with the different address b@x.com on the same domain; the record is
normalized (defaults for status and paid, None elsewhere). -/
def cmpC7 : Source :=
  ⟨"it", [("email", "Email")],
   [("u1", [("email", Value.str "b@x.com"),
            ("status", Value.str "active"),
            ("paid", Value.bool true)])]⟩

theorem readField_len : ∀ cs name r, readField cs = some (name, r) → r.length < cs.length := by
  intro cs
  induction cs with
  | nil => intro name r h; simp [readField] at h
  | cons c rest ih =>
    intro name r h
    simp only [readField] at h
    split at h
    · rw [Option.some_inj, Prod.ext_iff] at h
      obtain ⟨h1, h2⟩ := h
      subst h2
      simp only [List.length_cons]
      omega
    · cases hr : readField rest with
      | none => rw [hr] at h; exact absurd h (by simp)
      | some p =>
        obtain ⟨n2, r2⟩ := p
        rw [hr, Option.some_inj, Prod.ext_iff] at h
        obtain ⟨h1, h2⟩ := h
        subst h2
        have := ih n2 r2 hr
        simp only [List.length_cons]
        omega

theorem rbrace_ne_lbrace : ¬ rbrace = lbrace := by decide

theorem fmt_cases_go (kw : List (String × String)) : ∀ fuel cs, cs.length ≤ fuel →
    wfGo fuel cs = true →
    (missingGo kw fuel cs = [] → ∃ s, fmtGo kw fuel cs = .ok s) ∧
    (∀ n r2, missingGo kw fuel cs = n :: r2 → fmtGo kw fuel cs = .error (.keyError n)) := by
  intro fuel
  induction fuel with
  | zero =>
    intro cs hle hwf
    have hnil : cs = [] := List.length_eq_zero.mp (Nat.le_zero.mp hle)
    subst hnil
    constructor
    · intro _
      exact ⟨"", by simp [fmtGo]⟩
    · intro n r2 hm
      simp [missingGo, fieldsGo] at hm
  | succ fuel ih =>
    intro cs hle hwf
    cases cs with
    | nil =>
      constructor
      · intro _
        exact ⟨"", by simp [fmtGo]⟩
      · intro n r2 hm
        simp [missingGo, fieldsGo] at hm
    | cons c rest =>
      simp only [List.length_cons] at hle
      by_cases hcl : c = lbrace
      · subst hcl
        cases rest with
        | nil => simp [wfGo] at hwf
        | cons c2 rest2 =>
          simp only [List.length_cons] at hle
          by_cases hc2 : c2 = lbrace
          · subst hc2
            simp only [wfGo] at hwf
            have hrec := ih rest2 (by omega) hwf
            obtain ⟨ih1, ih2⟩ := hrec
            have hmiss : missingGo kw (fuel + 1) (lbrace :: lbrace :: rest2) = missingGo kw fuel rest2 := by
              simp [missingGo, fieldsGo]
            constructor
            · intro hm
              rw [hmiss] at hm
              obtain ⟨s, hs⟩ := ih1 hm
              exact ⟨String.mk [lbrace] ++ s, by simp [fmtGo, hs, Except.map]⟩
            · intro n r2 hm
              rw [hmiss] at hm
              have := ih2 n r2 hm
              simp [fmtGo, this, Except.map]
          · cases hrf : readField (c2 :: rest2) with
            | none =>
              rw [show wfGo (fuel + 1) (lbrace :: c2 :: rest2) = false by
                simp [wfGo, hc2, hrf]] at hwf
              cases hwf
            | some nr =>
              obtain ⟨name, r⟩ := nr
              have hrlen : r.length < rest2.length + 1 := readField_len _ _ _ hrf
              rw [show wfGo (fuel + 1) (lbrace :: c2 :: rest2) = wfGo fuel r by
                simp [wfGo, hc2, hrf]] at hwf
              cases hlk : lookupKw kw name with
              | none =>
                have hmiss : missingGo kw (fuel + 1) (lbrace :: c2 :: rest2)
                    = name :: missingGo kw fuel r := by
                  simp [missingGo, fieldsGo, hc2, hrf, hlk]
                constructor
                · intro hm
                  rw [hmiss] at hm
                  simp at hm
                · intro n r2 hm
                  rw [hmiss] at hm
                  obtain ⟨hn, _⟩ := List.cons_eq_cons.mp hm
                  subst hn
                  simp [fmtGo, hc2, hrf, hlk]
              | some v =>
                obtain ⟨ih1, ih2⟩ := ih r (by omega) hwf
                have hmiss : missingGo kw (fuel + 1) (lbrace :: c2 :: rest2)
                    = missingGo kw fuel r := by
                  simp [missingGo, fieldsGo, hc2, hrf, hlk]
                constructor
                · intro hm
                  rw [hmiss] at hm
                  obtain ⟨s, hs⟩ := ih1 hm
                  exact ⟨v ++ s, by simp [fmtGo, hc2, hrf, hlk, hs, Except.map]⟩
                · intro n r2 hm
                  rw [hmiss] at hm
                  have := ih2 n r2 hm
                  simp [fmtGo, hc2, hrf, hlk, this, Except.map]
      · by_cases hcr : c = rbrace
        · subst hcr
          cases rest with
          | nil => simp [wfGo, rbrace_ne_lbrace] at hwf
          | cons c2 rest2 =>
            simp only [List.length_cons] at hle
            by_cases hc2 : c2 = rbrace
            · subst hc2
              rw [show wfGo (fuel + 1) (rbrace :: rbrace :: rest2) = wfGo fuel rest2 by
                simp [wfGo, rbrace_ne_lbrace]] at hwf
              obtain ⟨ih1, ih2⟩ := ih rest2 (by omega) hwf
              have hmiss : missingGo kw (fuel + 1) (rbrace :: rbrace :: rest2)
                  = missingGo kw fuel rest2 := by
                simp [missingGo, fieldsGo, rbrace_ne_lbrace]
              constructor
              · intro hm
                rw [hmiss] at hm
                obtain ⟨s, hs⟩ := ih1 hm
                exact ⟨String.mk [rbrace] ++ s, by simp [fmtGo, rbrace_ne_lbrace, hs, Except.map]⟩
              · intro n r2 hm
                rw [hmiss] at hm
                have := ih2 n r2 hm
                simp [fmtGo, rbrace_ne_lbrace, this, Except.map]
            · rw [show wfGo (fuel + 1) (rbrace :: c2 :: rest2) = false by
                simp [wfGo, rbrace_ne_lbrace, hc2]] at hwf
              cases hwf
        · rw [show wfGo (fuel + 1) (c :: rest) = wfGo fuel rest by
            simp [wfGo, hcl, hcr]] at hwf
          obtain ⟨ih1, ih2⟩ := ih rest (by omega) hwf
          have hmiss : missingGo kw (fuel + 1) (c :: rest) = missingGo kw fuel rest := by
            simp [missingGo, fieldsGo, hcl, hcr]
          constructor
          · intro hm
            rw [hmiss] at hm
            obtain ⟨s, hs⟩ := ih1 hm
            exact ⟨String.mk [c] ++ s, by simp [fmtGo, hcl, hcr, hs, Except.map]⟩
          · intro n r2 hm
            rw [hmiss] at hm
            have := ih2 n r2 hm
            simp [fmtGo, hcl, hcr, this, Except.map]

theorem fmt_cases (kw : List (String × String)) (cs : List Char) (hwf : wfChars cs = true) :
    (missingKw kw cs = [] → ∃ s, formatChars kw cs = .ok s) ∧
    (∀ n r2, missingKw kw cs = n :: r2 → formatChars kw cs = .error (.keyError n)) :=
  fmt_cases_go kw cs.length cs le_rfl hwf

theorem lookupKw_map_ne (kw : List (String × String)) (k v m : String) (hmk : ¬ m = k) :
    lookupKw (kw.map (fun p => if p.1 == k then (k, v) else p)) m = lookupKw kw m := by
  induction kw with
  | nil => simp [lookupKw]
  | cons p rest ih =>
    simp only [List.map_cons, lookupKw, List.find?_cons]
    by_cases hp : p.1 = k
    · have h1 : ((if p.1 == k then (k, v) else p).1 == m) = false := by
        simp [hp, show ¬ (k = m) from fun hh => hmk hh.symm]
      have h2 : (p.1 == m) = false := by
        simp [hp, show ¬ (k = m) from fun hh => hmk hh.symm]
      rw [h1, h2]
      simpa [lookupKw] using ih
    · have hif : (if p.1 == k then (k, v) else p) = p := by simp [hp]
      rw [hif]
      by_cases hpm : p.1 = m
      · simp [hpm]
      · rw [show (p.1 == m) = false by simpa using hpm]
        simpa [lookupKw] using ih

theorem lookupKw_map_eq (kw : List (String × String)) (k v : String)
    (hmem : (kw.find? (fun p => p.1 == k)).isSome = true) :
    lookupKw (kw.map (fun p => if p.1 == k then (k, v) else p)) k = some v := by
  induction kw with
  | nil => simp at hmem
  | cons p rest ih =>
    simp only [List.map_cons, lookupKw, List.find?_cons]
    by_cases hp : p.1 = k
    · simp [hp]
    · have hif : (if p.1 == k then (k, v) else p) = p := by simp [hp]
      rw [hif, show (p.1 == k) = false by simpa using hp]
      simp only [List.find?_cons, show (p.1 == k) = false by simpa using hp] at hmem
      simpa [lookupKw] using ih hmem

theorem lookupKw_append_single (kw : List (String × String)) (k v m : String)
    (hmem : (kw.find? (fun p => p.1 == k)).isSome = false) :
    lookupKw (kw ++ [(k, v)]) m = if m = k then some v else lookupKw kw m := by
  induction kw with
  | nil =>
    by_cases hmk : m = k
    · simp [lookupKw, hmk]
    · simp [lookupKw, hmk, show (k == m) = false by simpa using fun hh => hmk hh.symm]
  | cons p rest ih =>
    simp only [List.find?_cons] at hmem
    by_cases hpk : p.1 = k
    · simp [hpk] at hmem
    · rw [show (p.1 == k) = false by simpa using hpk] at hmem
      simp only [List.cons_append, lookupKw, List.find?_cons]
      by_cases hpm : p.1 = m
      · have hmk : ¬ m = k := fun hh => hpk (by rw [hpm, hh])
        simp [hpm, hmk]
      · rw [show (p.1 == m) = false by simpa using hpm]
        simpa [lookupKw] using ih hmem

theorem lookupKw_setKw (kw : List (String × String)) (k v m : String) :
    lookupKw (setKw kw k v) m = if m = k then some v else lookupKw kw m := by
  unfold setKw
  by_cases hmem : (kw.find? (fun p => p.1 == k)).isSome
  · rw [if_pos hmem]
    by_cases hmk : m = k
    · subst hmk
      rw [if_pos rfl]
      exact lookupKw_map_eq kw m v hmem
    · rw [if_neg hmk]
      exact lookupKw_map_ne kw k v m hmk
  · rw [if_neg hmem]
    have hx : (kw.find? (fun p => p.1 == k)).isSome = false := by
      cases hy : (kw.find? (fun p => p.1 == k)).isSome
      · rfl
      · exact absurd hy hmem
    exact lookupKw_append_single kw k v m hx

theorem lookupF_of_not_contains (fs : FindMap) (uid : String)
    (h : containsKeyF fs uid = false) : lookupF fs uid = [] := by
  induction fs with
  | nil => rfl
  | cons p rest ih =>
    simp only [containsKeyF, List.any_cons, Bool.or_eq_false_iff] at h
    obtain ⟨h1, h2⟩ := h
    simp only [lookupF, List.find?_cons, h1]
    exact ih h2

theorem lookupF_append_new (fs : FindMap) (uid : String) (xs : List Finding)
    (h : containsKeyF fs uid = false) : lookupF (fs ++ [(uid, xs)]) uid = xs := by
  induction fs with
  | nil => simp [lookupF, List.find?]
  | cons p rest ih =>
    simp only [containsKeyF, List.any_cons, Bool.or_eq_false_iff] at h
    obtain ⟨h1, h2⟩ := h
    simp only [List.cons_append, lookupF, List.find?_cons, h1]
    exact ih h2

theorem lookupF_append_other (fs : FindMap) (uid u : String) (xs : List Finding)
    (h : ¬ u = uid) : lookupF (fs ++ [(uid, xs)]) u = lookupF fs u := by
  induction fs with
  | nil =>
    simp [lookupF, List.find?, show (uid == u) = false by
      simpa using fun hh => h hh.symm]
  | cons p rest ih =>
    by_cases hp : p.1 = u
    · simp [lookupF, List.find?_cons, hp]
    · simp only [List.cons_append, lookupF, List.find?_cons,
        show (p.1 == u) = false by simpa using hp] at ih ⊢
      exact ih

theorem containsKeyF_append (fs : FindMap) (uid : String) (xs : List Finding) :
    containsKeyF (fs ++ [(uid, xs)]) uid = true := by
  induction fs with
  | nil => simp [containsKeyF]
  | cons p rest ih =>
    simp only [containsKeyF, List.cons_append, List.any_cons] at ih ⊢
    rw [ih]
    simp

theorem lookupF_appendAtF_same (fs : FindMap) (uid : String) (g : Finding)
    (h : containsKeyF fs uid = true) :
    lookupF (appendAtF fs uid g) uid = lookupF fs uid ++ [g] := by
  induction fs with
  | nil => simp [containsKeyF] at h
  | cons p rest ih =>
    by_cases hp : p.1 = uid
    · have hpb : (p.1 == uid) = true := by simpa using hp
      simp only [appendAtF, hpb, if_true]
      simp only [lookupF, List.find?_cons, hpb]
    · have hpb : (p.1 == uid) = false := by simpa using hp
      simp only [containsKeyF, List.any_cons, hpb, Bool.false_or] at h
      simp only [appendAtF, hpb, Bool.false_eq_true, if_false]
      simp only [lookupF, List.find?_cons, hpb]
      simpa [lookupF] using ih h

theorem lookupF_appendAtF_other (fs : FindMap) (uid u : String) (g : Finding)
    (h : ¬ u = uid) : lookupF (appendAtF fs uid g) u = lookupF fs u := by
  induction fs with
  | nil => rfl
  | cons p rest ih =>
    by_cases hp : p.1 = uid
    · have hpb : (p.1 == uid) = true := by simpa using hp
      have hpu : (p.1 == u) = false := by
        simp only [beq_eq_false_iff_ne, ne_eq, hp]
        exact fun hh => h hh.symm
      simp only [appendAtF, hpb, if_true]
      simp only [lookupF, List.find?_cons, hpu]
      simpa [lookupF] using ih
    · have hpb : (p.1 == uid) = false := by simpa using hp
      simp only [appendAtF, hpb, Bool.false_eq_true, if_false]
      by_cases hpu : p.1 = u
      · have hub : (p.1 == u) = true := by simpa using hpu
        simp only [lookupF, List.find?_cons, hub]
      · have hub : (p.1 == u) = false := by simpa using hpu
        simp only [lookupF, List.find?_cons, hub]
        simpa [lookupF] using ih

theorem Finding.call_key (f : Finding) (kw : List (String × String)) (g : Finding)
    (h : f.call kw = .ok g) : g.key = f.key ∧ g.description = f.description ∧
      g.severity = f.severity := by
  unfold Finding.call at h
  split at h
  all_goals first
    | (simp only [Except.ok.injEq] at h
       subst h
       exact ⟨rfl, rfl, rfl⟩)
    | cases h
    | (split at h
       all_goals first
         | (simp only [Except.ok.injEq] at h
            subst h
            exact ⟨rfl, rfl, rfl⟩)
         | cases h)

theorem addFinding_disabled (cfg : Config) (fs : FindMap) (uid : String)
    (f : Finding) (kw : List (String × String))
    (h : cfg.disable.contains f.key = true) :
    addFinding cfg fs uid f kw = (fs, Option.none) := by
  unfold addFinding
  rw [h]
  rfl

theorem addFinding_ok (cfg : Config) (fs : FindMap) (uid : String) (f : Finding)
    (kw : List (String × String)) (g : Finding)
    (hdis : cfg.disable.contains f.key = false) (hcall : f.call kw = .ok g) :
    ∃ fs2, addFinding cfg fs uid f kw = (fs2, Option.none) ∧
      lookupF fs2 uid = lookupF fs uid ++ [g] ∧
      ∀ u, ¬ u = uid → lookupF fs2 u = lookupF fs u := by
  unfold addFinding
  rw [hdis, hcall]
  simp only [Bool.false_eq_true, if_false]
  by_cases hmem : containsKeyF fs uid = true
  · rw [if_pos hmem]
    refine ⟨appendAtF fs uid g, rfl, lookupF_appendAtF_same fs uid g hmem, ?_⟩
    intro u hu
    exact lookupF_appendAtF_other fs uid u g hu
  · have hmem2 : containsKeyF fs uid = false := by
      cases hy : containsKeyF fs uid
      · rfl
      · exact absurd hy hmem
    rw [if_neg hmem]
    refine ⟨appendAtF (fs ++ [(uid, [])]) uid g, rfl, ?_, ?_⟩
    · rw [lookupF_appendAtF_same _ uid g (containsKeyF_append fs uid []),
        lookupF_append_new fs uid [] hmem2, lookupF_of_not_contains fs uid hmem2]
    · intro u hu
      rw [lookupF_appendAtF_other _ uid u g hu, lookupF_append_other fs uid u [] hu]

theorem call_ok_of_covered (f : Finding) (kw : List (String × String))
    (hwf : wfChars f.description.data = true)
    (hmiss : missingKw kw f.description.data = []) :
    ∃ g, f.call kw = .ok g ∧ g.key = f.key := by
  obtain ⟨h1, _⟩ := fmt_cases kw f.description.data hwf
  obtain ⟨s, hs⟩ := h1 hmiss
  refine ⟨{ f with formattedMessage := some s }, ?_, rfl⟩
  unfold Finding.call
  rw [hs]

/-- C10: for a finding whose key is in the configured disable list,
add_finding is a no-op: the findings mapping of the source is returned
completely unchanged, with no entry created for the user id and nothing
appended, so a source can report itself clean even though a validator
attempted to record the finding; for a key not in the disable list,
add_finding appends exactly one bound finding to the list of that user id
and leaves every other user id unchanged. -/
theorem C10_add_finding_disable_frame (cfg : Config) (fs : FindMap)
    (uid : String) (f : Finding) (kw : List (String × String)) (g : Finding) :
    (cfg.disable.contains f.key = true →
      addFinding cfg fs uid f kw = (fs, Option.none)) ∧
    (cfg.disable.contains f.key = false → f.call kw = .ok g →
      ∃ fs2, addFinding cfg fs uid f kw = (fs2, Option.none) ∧
        lookupF fs2 uid = lookupF fs uid ++ [g] ∧
        ∀ u, ¬ u = uid → lookupF fs2 u = lookupF fs u) :=
  ⟨fun h => addFinding_disabled cfg fs uid f kw h,
   fun hdis hcall => addFinding_ok cfg fs uid f kw g hdis hcall⟩

/-- Witness for C10 at concrete inputs: with EMAIL_MISSING disabled the
state is unchanged from the empty mapping, and with nothing disabled the
bound finding is appended for the user. -/
theorem C10_add_finding_disable_frame_witness :
    (addFinding ⟨["EMAIL_MISSING"], []⟩ [] "u1" FindingType.EMAIL_MISSING []
      = ([], Option.none)) ∧
    (∃ fs2, addFinding ⟨[], []⟩ [] "u1" FindingType.EMAIL_MISSING []
        = (fs2, Option.none) ∧
      lookupF fs2 "u1" = lookupF [] "u1" ++
        [⟨"EMAIL_MISSING", "No email address", .error, some "No email address"⟩] ∧
      ∀ u, ¬ u = "u1" → lookupF fs2 u = lookupF [] u) :=
  ⟨(C10_add_finding_disable_frame ⟨["EMAIL_MISSING"], []⟩ [] "u1"
      FindingType.EMAIL_MISSING [] FindingType.EMAIL_MISSING).1 (by decide),
   (C10_add_finding_disable_frame ⟨[], []⟩ [] "u1" FindingType.EMAIL_MISSING []
      ⟨"EMAIL_MISSING", "No email address", .error, some "No email address"⟩).2
      (by decide) (by rfl)⟩

/-- C2 counterexample: in a source whose mapping has no last_login entry,
has_logged_in returns true, while the claim predicts the conjunction
(mapped and not sentinel), which is false here; the two sides disagree at
this concrete input. -/
theorem C2_unmapped_last_login_cex :
    ¬ (hasLoggedIn srcC2 recC2 =
       (srcC2.hasField "last_login" && hasDateValueV (recGet recC2 "last_login"))) := by
  decide

/-- C2 amended: has_logged_in returns true exactly when the last_login
field is not mapped on the source or the value passes has_date_value (is
a datetime different from the never-logged-in sentinel carrying the same
timezone); in particular a record in a source with no last_login mapping
counts as logged in. -/
theorem C2_has_logged_in_amended (src : Source) (user : Record) :
    hasLoggedIn src user =
      (!(src.hasField "last_login") || hasDateValueV (recGet user "last_login")) := by
  cases hf : src.hasField "last_login" <;>
    cases hd : hasDateValueV (recGet user "last_login") <;>
      simp [hasLoggedIn, hf, hd]

/-- C9: a dynamic validation rule with skip-empty set never fires for a
record whose value of the target field is the boolean false: the record
is skipped before any trigger operator is evaluated, leaving the findings
state untouched and raising nothing, for every trigger, operand,
transform and configuration. -/
theorem C9_skip_empty_bool_false (cfg : Config) (reM : String → String → Bool)
    (strDT : PyDateTime → String) (nowNaive : Int) (rule : DynRule)
    (uid : String) (rec2 : Record) (fs : FindMap)
    (hskip : rule.skipEmpty = true)
    (hval : recGet rec2 rule.field = .bool false) :
    dynValidateUser cfg reM strDT nowNaive rule uid rec2 fs = (fs, Option.none) := by
  simp [dynValidateUser, hval, hskip, skipEmptyCheck]

/-- Witness for C9 at concrete inputs: a skip-empty rule with the
is_false trigger, which would fire on the value false were the record not
skipped, leaves the state unchanged. -/
theorem C9_skip_empty_bool_false_witness :
    dynValidateUser ⟨[], []⟩ (fun _ _ => false) (fun _ => "") 0 ruleC9 "u1"
      [("privileged", Value.bool false)] [] = ([], Option.none) :=
  C9_skip_empty_bool_false ⟨[], []⟩ (fun _ _ => false) (fun _ => "") 0 ruleC9
    "u1" [("privileged", Value.bool false)] [] (by rfl) (by rfl)

/-- C3 counterexample: binding the department-mismatch template with no
parameters raises: the first format raises KeyError for source_dept, the
retry substitutes the sentinel only for that one parameter, and the
second format raises KeyError for compare_dept, which propagates. -/
theorem C3_two_missing_params_raise_cex :
    FindingType.DEPT_MISMATCH.call [] = .error (.keyError "compare_dept") := by
  rfl

/-- C3 amended: calling a finding template whose set of uncovered
parameters has at most one distinct name returns a bound finding and
never raises — the single missing parameter is replaced by the sentinel
marker; when two or more distinct parameters are missing at once, the
single-parameter retry raises KeyError (see the counterexample). -/
theorem C3_call_ok_of_at_most_one_missing (f : Finding) (kw : List (String × String))
    (hwf : wfChars f.description.data = true)
    (hone : (missingKw kw f.description.data).dedup.length ≤ 1) :
    ∃ g, f.call kw = .ok g := by
  obtain ⟨h1, h2⟩ := fmt_cases kw f.description.data hwf
  cases hmiss : missingKw kw f.description.data with
  | nil =>
    obtain ⟨s, hs⟩ := h1 hmiss
    refine ⟨{ f with formattedMessage := some s }, ?_⟩
    unfold Finding.call
    rw [hs]
  | cons n rest =>
    have herr := h2 n rest hmiss
    have hall : ∀ m ∈ missingKw kw f.description.data, m = n := by
      intro m hm
      have hmd : m ∈ (missingKw kw f.description.data).dedup := List.mem_dedup.mpr hm
      have hnd : n ∈ (missingKw kw f.description.data).dedup :=
        List.mem_dedup.mpr (by rw [hmiss]; exact List.mem_cons_self n rest)
      cases hd : (missingKw kw f.description.data).dedup with
      | nil => rw [hd] at hmd; cases hmd
      | cons x t =>
        cases t with
        | nil =>
          rw [hd] at hmd hnd
          simp at hmd hnd
          rw [hmd, hnd]
        | cons y t2 =>
          rw [hd] at hone
          simp only [List.length_cons] at hone
          omega
    have hm2 : missingKw (setKw kw n "##N/A##") f.description.data = [] := by
      unfold missingKw missingGo
      rw [List.filter_eq_nil_iff]
      intro a ha
      rw [lookupKw_setKw]
      by_cases han : a = n
      · simp [han]
      · rw [if_neg han]
        simp only [Option.isNone_iff_eq_none, Bool.not_eq_true]
        intro hno
        exact absurd (hall a (List.mem_filter.mpr ⟨ha, by simp [hno]⟩)) han
    obtain ⟨h1b, _⟩ := fmt_cases (setKw kw n "##N/A##") f.description.data hwf
    obtain ⟨s, hs⟩ := h1b hm2
    refine ⟨{ f with formattedMessage := some s }, ?_⟩
    unfold Finding.call
    simp only [herr, hs]

/-- Witness for C3 at a concrete input: the email-invalid template called
with no parameters has exactly one missing parameter and binds with the
sentinel substituted. -/
theorem C3_call_ok_witness : ∃ g, FindingType.EMAIL_INVALID.call [] = .ok g :=
  C3_call_ok_of_at_most_one_missing FindingType.EMAIL_INVALID [] (by decide) (by decide)

/-- C8: normalization is deterministic and idempotent: loading the same
headers and raw rows with the same mapping and rewrite configuration on
two runs yields identical identity records and resolves every field to
the same column (the first header matching it) on both runs; within a
load the resolution is computed once, before row processing, and cached,
so every row uses the same resolved mapping. -/
theorem C8_load_deterministic (parseDate : String → Option PyDateTime)
    (reMatch : String → String → Bool)
    (reMatchExpand : String → String → String → Option String)
    (headers : List String) (rows : List RawRow)
    (mapping : List (String × String))
    (rewrite : List (String × List (String × Option String))) :
    load_csv parseDate reMatch reMatchExpand headers rows mapping rewrite =
      load_csv parseDate reMatch reMatchExpand headers rows mapping rewrite ∧
    (load_csv parseDate reMatch reMatchExpand headers rows mapping rewrite).1 =
      resolveMapping reMatch headers mapping ∧
    (load_csv parseDate reMatch reMatchExpand headers rows mapping rewrite).2 =
      loadRowsGo parseDate reMatchExpand (resolveMapping reMatch headers mapping)
        rewrite rows [] :=
  ⟨rfl, rfl, rfl⟩

/-- C5 counterexample: with status mapped and its raw value empty, the
load is a fatal conform error (the empty string is not in the status
enumeration); the declared default is not populated for the mapped-but-
empty field, contrary to the claim. -/
theorem C5_mapped_empty_status_fatal_cex :
    (load_csv (fun _ => Option.none) (fun p h => p == h) (fun _ _ _ => Option.none)
      ["id", "st"] [[("id", "u1"), ("st", "")]]
      [("user_id", "id"), ("status", "st")] []).2 =
    .error (.valueError "Value \"\" not in allowed values for field \"status\"") := by
  rfl

theorem recGet_eq_none (l : Record) (f : String)
    (h : l.any (fun q => q.1 == f) = false) : recGet l f = Value.none := by
  induction l with
  | nil => rfl
  | cons q rest ih =>
    simp only [List.any_cons, Bool.or_eq_false_iff] at h
    obtain ⟨h1, h2⟩ := h
    simp only [recGet, List.find?_cons, h1]
    exact ih h2

theorem recGet_append_one (l : Record) (p : String × Value) (f : String)
    (h : l.any (fun q => q.1 == f) = false) :
    recGet (l ++ [p]) f = (if p.1 == f then p.2 else Value.none) := by
  induction l with
  | nil =>
    cases hp : (p.1 == f) <;> simp [recGet, List.find?_cons, hp]
  | cons q rest ih =>
    simp only [List.any_cons, Bool.or_eq_false_iff] at h
    obtain ⟨h1, h2⟩ := h
    simp only [List.cons_append, recGet, List.find?_cons, h1]
    exact ih h2

theorem recGet_append_left (l xs : Record) (f : String)
    (h : l.any (fun q => q.1 == f) = true) :
    recGet (l ++ xs) f = recGet l f := by
  induction l with
  | nil => simp at h
  | cons q rest ih =>
    by_cases hq : q.1 = f
    · simp [recGet, List.find?_cons, show (q.1 == f) = true by simpa using hq]
    · have hqb : (q.1 == f) = false := by simpa using hq
      simp only [List.any_cons, hqb, Bool.false_or] at h
      simp only [List.cons_append, recGet, List.find?_cons, hqb] at ih ⊢
      exact ih h

theorem foldExtend_any {α : Type} (gk : α → String) (gv : α → Value)
    (ps : List α) (l : Record) (f : String) :
    ((ps.foldl (fun l2 p => if l2.any (fun q => q.1 == gk p) then l2
        else l2 ++ [(gk p, gv p)]) l).any (fun q => q.1 == f)) =
      (l.any (fun q => q.1 == f) || ps.any (fun p => gk p == f)) := by
  induction ps generalizing l with
  | nil => simp
  | cons p rest ih =>
    simp only [List.foldl_cons, List.any_cons]
    by_cases hl : l.any (fun q => q.1 == gk p) = true
    · rw [if_pos hl, ih l]
      by_cases hpf : gk p = f
      · have hlf : l.any (fun q => q.1 == f) = true := hpf ▸ hl
        simp [hlf]
      · simp [show (gk p == f) = false by simpa using hpf]
    · rw [if_neg hl, ih (l ++ [(gk p, gv p)]), List.any_append]
      simp [Bool.or_assoc]

theorem foldExtend_get {α : Type} (gk : α → String) (gv : α → Value)
    (ps : List α) (l : Record) (f : String) :
    recGet (ps.foldl (fun l2 p => if l2.any (fun q => q.1 == gk p) then l2
        else l2 ++ [(gk p, gv p)]) l) f =
      (if l.any (fun q => q.1 == f) = true then recGet l f
       else
         match ps.find? (fun p => gk p == f) with
         | some p => gv p
         | Option.none => recGet l f) := by
  induction ps generalizing l with
  | nil =>
    simp only [List.foldl_nil, List.find?_nil]
    split <;> rfl
  | cons p rest ih =>
    simp only [List.foldl_cons, List.find?_cons]
    by_cases hl : l.any (fun q => q.1 == gk p) = true
    · rw [if_pos hl, ih l]
      by_cases hpf : gk p = f
      · have hlf : l.any (fun q => q.1 == f) = true := hpf ▸ hl
        simp [hlf]
      · simp only [show (gk p == f) = false by simpa using hpf, Bool.false_eq_true,
          if_false]
    · rw [if_neg hl, ih (l ++ [(gk p, gv p)])]
      by_cases hpf : gk p = f
      · have hb : (gk p == f) = true := by simpa using hpf
        have hlf : l.any (fun q => q.1 == f) = false := by
          cases hx : l.any (fun q => q.1 == f)
          · rfl
          · exact absurd (show l.any (fun q => q.1 == gk p) = true from hpf ▸ hx) hl
        have happ : (l ++ [(gk p, gv p)]).any (fun q => q.1 == f) = true := by
          simp [List.any_append, hb]
        rw [if_pos happ, recGet_append_one l (gk p, gv p) f hlf]
        simp [hb, hlf]
      · have hbf : (gk p == f) = false := by simpa using hpf
        have happ : (l ++ [(gk p, gv p)]).any (fun q => q.1 == f)
            = l.any (fun q => q.1 == f) := by
          simp [List.any_append, hbf]
        by_cases hx : l.any (fun q => q.1 == f) = true
        · rw [if_pos (happ ▸ hx), if_pos hx,
            recGet_append_left l [(gk p, gv p)] f hx]
        · have hx2 : l.any (fun q => q.1 == f) = false := by
            cases hy : l.any (fun q => q.1 == f)
            · rfl
            · exact absurd hy hx
          rw [if_neg (by rw [happ]; exact hx), if_neg hx]
          simp only [hbf, Bool.false_eq_true, if_false]
          cases hfind : rest.find? (fun p => gk p == f) with
          | some p2 => simp [hfind]
          | none =>
            simp only [hfind]
            rw [recGet_append_one l (gk p, gv p) f hx2, recGet_eq_none l f hx2]
            simp [hbf]

theorem buildLine_any (parseDate : String → Option PyDateTime)
    (reMatchExpand : String → String → String → Option String)
    (rewrite : List (String × List (String × Option String))) (row : RawRow) :
    ∀ mapping line, buildLine parseDate reMatchExpand rewrite row mapping = .ok line →
      ∀ f, line.any (fun q => q.1 == f) = mapping.any (fun q => q.1 == f) := by
  intro mapping
  induction mapping with
  | nil =>
    intro line h f
    simp only [buildLine, Except.ok.injEq] at h
    subst h
    simp
  | cons kv rest ih =>
    intro line h f
    obtain ⟨k, v⟩ := kv
    simp only [buildLine] at h
    cases hr : rowGet row v with
    | none => simp only [hr] at h; cases h
    | some raw =>
      simp only [hr] at h
      cases hc : conform parseDate (rewriteValue reMatchExpand rewrite k raw) k with
      | error e => simp only [hc] at h; cases h
      | ok val =>
        simp only [hc] at h
        cases hb : buildLine parseDate reMatchExpand rewrite row rest with
        | error e => simp only [hb] at h; cases h
        | ok l2 =>
          simp only [hb] at h
          simp only [Except.map, Except.ok.injEq] at h
          subst h
          simp only [List.any_cons]
          rw [ih l2 hb f]

/-- C5 counterexample fixture is inline in the statement; the amended
theorem characterizes the default and None population of a line built for
one row. -/
theorem C5_defaults_only_when_unmapped (parseDate : String → Option PyDateTime)
    (reMatchExpand : String → String → String → Option String)
    (rewrite : List (String × List (String × Option String))) (row : RawRow)
    (mapping : List (String × String)) (line : Record)
    (hbuild : buildLine parseDate reMatchExpand rewrite row mapping = .ok line) :
    (mapping.any (fun p => p.1 == "status") = false →
      recGet (addMissingNone (addDefaults line)) "status" = .str "active") ∧
    (mapping.any (fun p => p.1 == "paid") = false →
      recGet (addMissingNone (addDefaults line)) "paid" = .bool true) ∧
    (∀ f, common_fields.any (fun p => p.1 == f) = true →
      mapping.any (fun p => p.1 == f) = false →
      default_values.any (fun p => p.1 == f) = false →
      recGet (addMissingNone (addDefaults line)) f = Value.none) := by
  have hkeys := buildLine_any parseDate reMatchExpand rewrite row mapping line hbuild
  refine ⟨?_, ?_, ?_⟩
  · intro hunmapped
    have hline : line.any (fun q => q.1 == "status") = false := by
      rw [hkeys "status"]; exact hunmapped
    unfold addMissingNone addDefaults
    rw [foldExtend_get (fun p => p.1) (fun _ => Value.none) common_fields _ "status",
      foldExtend_any (fun p => p.1) (fun p => p.2) default_values line "status",
      hline]
    rw [show (default_values.any (fun p => p.1 == "status")) = true from by decide]
    simp only [Bool.false_or, if_true]
    rw [foldExtend_get (fun p => p.1) (fun p => p.2) default_values line "status",
      hline]
    rw [show (default_values.find? (fun p => p.1 == "status"))
        = some ("status", Value.str "active") from by rfl]
    rfl
  · intro hunmapped
    have hline : line.any (fun q => q.1 == "paid") = false := by
      rw [hkeys "paid"]; exact hunmapped
    unfold addMissingNone addDefaults
    rw [foldExtend_get (fun p => p.1) (fun _ => Value.none) common_fields _ "paid",
      foldExtend_any (fun p => p.1) (fun p => p.2) default_values line "paid",
      hline]
    rw [show (default_values.any (fun p => p.1 == "paid")) = true from by decide]
    simp only [Bool.false_or, if_true]
    rw [foldExtend_get (fun p => p.1) (fun p => p.2) default_values line "paid",
      hline]
    rw [show (default_values.find? (fun p => p.1 == "paid"))
        = some ("paid", Value.bool true) from by rfl]
    rfl
  · intro f hcf hunmapped hdef
    have hline : line.any (fun q => q.1 == f) = false := by
      rw [hkeys f]; exact hunmapped
    unfold addMissingNone addDefaults
    rw [foldExtend_get (fun p => p.1) (fun _ => Value.none) common_fields _ f,
      foldExtend_any (fun p => p.1) (fun p => p.2) default_values line f,
      hline, hdef]
    simp only [Bool.or_false, Bool.false_eq_true, if_false]
    cases hfind : common_fields.find? (fun p => p.1 == f) with
    | some p0 => simp [hfind]
    | none =>
      rw [List.find?_eq_none] at hfind
      obtain ⟨x, hx1, hx2⟩ := List.any_eq_true.mp hcf
      exact absurd hx2 (by simpa using hfind x hx1)

/-- Witness for C5 at a concrete input: a line with only user_id mapped
receives the status default and None for end_date. -/
theorem C5_defaults_only_when_unmapped_witness :
    recGet (addMissingNone (addDefaults [("user_id", Value.str "u1")])) "status"
      = .str "active" ∧
    recGet (addMissingNone (addDefaults [("user_id", Value.str "u1")])) "end_date"
      = Value.none :=
  ⟨(C5_defaults_only_when_unmapped (fun _ => Option.none) (fun _ _ _ => Option.none)
      [] [("id", "u1")] [("user_id", "id")] [("user_id", Value.str "u1")]
      (by rfl)).1 (by decide),
   (C5_defaults_only_when_unmapped (fun _ => Option.none) (fun _ _ _ => Option.none)
      [] [("id", "u1")] [("user_id", "id")] [("user_id", Value.str "u1")]
      (by rfl)).2.2 "end_date" (by decide) (by decide) (by decide)⟩

theorem pyEq_str_str (a b : String) : pyEq (.str a) (.str b) = (a == b) := rfl

theorem pyEq_str_right (v : Value) (a : String) :
    pyEq v (.str a) = true ↔ v = .str a := by
  cases v <;> simp [pyEq]

theorem firstMatching_none (reM : String → String → Bool) (name : String)
    (rec2 : Record) : ∀ exs, (∀ e ∈ exs, exSkipped reM name rec2 e = true) →
    firstMatchingException reM name rec2 exs = .ok Option.none := by
  intro exs
  induction exs with
  | nil => intro _; rfl
  | cons ex rest ih =>
    intro h
    have hex := h ex (List.mem_cons_self ex rest)
    have hrest : ∀ e ∈ rest, exSkipped reM name rec2 e = true :=
      fun e he => h e (List.mem_cons_of_mem ex he)
    unfold firstMatchingException
    by_cases happ : exApplicable ex name = true
    · rw [if_neg (by simp [happ])]
      unfold exSkipped at hex
      rw [happ] at hex
      simp only [Bool.not_true, Bool.false_or] at hex
      cases hv : recGet rec2 ex.field with
      | str s =>
        rw [hv] at hex
        simp only [Bool.not_eq_true'] at hex
        simp only [hv, hex, Bool.false_eq_true, if_false]
        exact ih hrest
      | none => rw [hv] at hex; cases hex
      | bool b => rw [hv] at hex; cases hex
      | int n => rw [hv] at hex; cases hex
      | float q => rw [hv] at hex; cases hex
      | date d => rw [hv] at hex; cases hex
      | list xs => rw [hv] at hex; cases hex
      | dict xs => rw [hv] at hex; cases hex
    · have hF : exApplicable ex name = false := by
        cases hy : exApplicable ex name
        · rfl
        · exact absurd hy happ
      rw [if_pos (by simp [hF])]
      exact ih hrest

theorem firstMatching_found (reM : String → String → Bool) (name : String)
    (rec2 : Record) : ∀ pre, (∀ e ∈ pre, exSkipped reM name rec2 e = true) →
    ∀ ex post s, exApplicable ex name = true → recGet rec2 ex.field = .str s →
    reM ex.pattern s = true →
    firstMatchingException reM name rec2 (pre ++ ex :: post) = .ok (some ex.reason) := by
  intro pre
  induction pre with
  | nil =>
    intro _ ex post s happ hval hm
    show firstMatchingException reM name rec2 (ex :: post) = .ok (some ex.reason)
    unfold firstMatchingException
    simp only [happ, Bool.not_true, Bool.false_eq_true, if_false, hval, hm, if_true]
  | cons e rest ih =>
    intro h ex post s happ hval hm
    have he := h e (List.mem_cons_self e rest)
    have hrest : ∀ x ∈ rest, exSkipped reM name rec2 x = true :=
      fun x hx => h x (List.mem_cons_of_mem e hx)
    have ihx := ih hrest ex post s happ hval hm
    show firstMatchingException reM name rec2 (e :: (rest ++ ex :: post))
      = .ok (some ex.reason)
    unfold firstMatchingException
    by_cases happe : exApplicable e name = true
    · unfold exSkipped at he
      rw [happe] at he
      simp only [Bool.not_true, Bool.false_or] at he
      cases hv : recGet rec2 e.field with
      | str s2 =>
        rw [hv] at he
        simp only [Bool.not_eq_true'] at he
        simp only [happe, Bool.not_true, Bool.false_eq_true, if_false, hv, he]
        exact ihx
      | none => rw [hv] at he; cases he
      | bool b => rw [hv] at he; cases he
      | int n => rw [hv] at he; cases he
      | float q => rw [hv] at he; cases he
      | date d => rw [hv] at he; cases he
      | list xs => rw [hv] at he; cases he
      | dict xs => rw [hv] at he; cases he
    · have hF : exApplicable e name = false := by
        cases hy : exApplicable e name
        · rfl
        · exact absurd hy happe
      simp only [hF, Bool.not_false, if_true]
      exact ihx

theorem call_documented (r : String) :
    FindingType.DOCUMENTED_EXCEPTION.call [("reason", r)] =
      .ok ⟨"DOCUMENTED_EXCEPTION", "{reason}", .notice, some r⟩ := by
  have h : FindingType.DOCUMENTED_EXCEPTION.call [("reason", r)] =
      .ok ⟨"DOCUMENTED_EXCEPTION", "{reason}", .notice, some (r ++ "")⟩ := rfl
  rw [h, String.append_empty]

/-- C4 counterexample: a compare-only user whose status is deactivated, a
value of the closed status enumeration of the schema, receives the
generic SOURCE_MISSING finding instead of a status-specific one. -/
theorem C4_deactivated_generic_cex :
    "deactivated" ∈ statusEnumValues ∧
    compareMissingUser ⟨[], []⟩ (fun _ _ => false) [] srcC4deact "u1" [] =
      ([("u1", [⟨"SOURCE_MISSING", "Not found in source of truth", .error,
        some "Not found in source of truth"⟩])], Option.none) :=
  ⟨by decide, by rfl⟩

/-- C4 amended: for a user missing from the source of truth with no
applicable matching exception, a status-specific finding is emitted
exactly when the status value is one of active, inactive, suspended,
deleted, unknown (the finding key is SOURCE_MISSING_ followed by the
uppercased status); for every other status value — including the
recognized enumeration value deactivated — and for a non-string or
absent status, the generic SOURCE_MISSING is emitted. -/
theorem C4_status_specific_amended (cfg : Config) (reM : String → String → Bool)
    (exs : List CompException) (cmp : Source) (uid : String) (fs : FindMap)
    (hdis : cfg.disable = [])
    (hexc : ∀ e ∈ exs, exSkipped reM cmp.name (usersGet cmp uid) e = true) :
    (∀ s, recGet (usersGet cmp uid) "status" = .str s →
      s ∈ ["active", "inactive", "suspended", "deleted", "unknown"] →
      ∃ fs2 g, compareMissingUser cfg reM exs cmp uid fs = (fs2, Option.none) ∧
        lookupF fs2 uid = lookupF fs uid ++ [g] ∧
        g.key = "SOURCE_MISSING_" ++ strUpper s) ∧
    ((∀ s, recGet (usersGet cmp uid) "status" = .str s →
        s ∉ ["active", "inactive", "suspended", "deleted", "unknown"]) →
      ∃ fs2 g, compareMissingUser cfg reM exs cmp uid fs = (fs2, Option.none) ∧
        lookupF fs2 uid = lookupF fs uid ++ [g] ∧
        g.key = "SOURCE_MISSING") := by
  have hfme := firstMatching_none reM cmp.name (usersGet cmp uid) exs hexc
  have hdis2 : ∀ k, cfg.disable.contains k = false := by
    intro k
    rw [hdis]
    rfl
  constructor
  · intro s hst hmem
    unfold compareMissingUser
    simp only [hfme, hst]
    fin_cases hmem
    · obtain ⟨fs2, h1, h2, _⟩ := addFinding_ok cfg fs uid
        FindingType.SOURCE_MISSING_ACTIVE []
        ⟨"SOURCE_MISSING_ACTIVE", "Not found in source of truth and is active",
         .error, some "Not found in source of truth and is active"⟩
        (hdis2 _) (by rfl)
      exact ⟨fs2, _, h1, h2, by decide⟩
    · obtain ⟨fs2, h1, h2, _⟩ := addFinding_ok cfg fs uid
        FindingType.SOURCE_MISSING_INACTIVE []
        ⟨"SOURCE_MISSING_INACTIVE", "Not found in source of truth and is inactive",
         .error, some "Not found in source of truth and is inactive"⟩
        (hdis2 _) (by rfl)
      exact ⟨fs2, _, h1, h2, by decide⟩
    · obtain ⟨fs2, h1, h2, _⟩ := addFinding_ok cfg fs uid
        FindingType.SOURCE_MISSING_SUSPENDED []
        ⟨"SOURCE_MISSING_SUSPENDED", "Not found in source of truth and is suspended",
         .error, some "Not found in source of truth and is suspended"⟩
        (hdis2 _) (by rfl)
      exact ⟨fs2, _, h1, h2, by decide⟩
    · obtain ⟨fs2, h1, h2, _⟩ := addFinding_ok cfg fs uid
        FindingType.SOURCE_MISSING_DELETED []
        ⟨"SOURCE_MISSING_DELETED", "Not found in source of truth and is deleted",
         .error, some "Not found in source of truth and is deleted"⟩
        (hdis2 _) (by rfl)
      exact ⟨fs2, _, h1, h2, by decide⟩
    · obtain ⟨fs2, h1, h2, _⟩ := addFinding_ok cfg fs uid
        FindingType.SOURCE_MISSING_UNKNOWN []
        ⟨"SOURCE_MISSING_UNKNOWN", "Not found in source of truth and status is unknown",
         .error, some "Not found in source of truth and status is unknown"⟩
        (hdis2 _) (by rfl)
      exact ⟨fs2, _, h1, h2, by decide⟩
  · intro hnot
    unfold compareMissingUser
    simp only [hfme]
    have hcond : ∀ lit, lit ∈ ["active", "inactive", "suspended", "deleted", "unknown"] →
        pyEq (recGet (usersGet cmp uid) "status") (.str lit) = false := by
      intro lit hlit
      cases hx : pyEq (recGet (usersGet cmp uid) "status") (.str lit)
      · rfl
      · exact absurd hlit (hnot lit ((pyEq_str_right _ lit).mp hx))
    simp only [hcond "active" (by decide), hcond "inactive" (by decide),
      hcond "suspended" (by decide), hcond "deleted" (by decide),
      hcond "unknown" (by decide), Bool.false_eq_true, if_false]
    obtain ⟨fs2, h1, h2, _⟩ := addFinding_ok cfg fs uid FindingType.SOURCE_MISSING []
      ⟨"SOURCE_MISSING", "Not found in source of truth", .error,
       some "Not found in source of truth"⟩ (hdis2 _) (by rfl)
    exact ⟨fs2, _, h1, h2, rfl⟩

/-- Witness for C4 at a concrete input: the compare-only suspended user
of the specification example receives SOURCE_MISSING_SUSPENDED. -/
theorem C4_status_specific_witness :
    ∃ fs2 g, compareMissingUser ⟨[], []⟩ (fun _ _ => false) [] srcC4susp "u1" []
      = (fs2, Option.none) ∧
      lookupF fs2 "u1" = lookupF [] "u1" ++ [g] ∧
      g.key = "SOURCE_MISSING_" ++ strUpper "suspended" :=
  (C4_status_specific_amended ⟨[], []⟩ (fun _ _ => false) [] srcC4susp "u1" []
    rfl (by simp)).1 "suspended" (by rfl) (by decide)

/-- C6: for a user present only in the compare source, the exceptions are
evaluated in declared order; when every earlier exception either does not
apply to the source name (only and skip lists) or has a non-matching
pattern, and some exception applies with its start-anchored pattern
matching the string value of its declared field on the compare record,
the loop short-circuits: exactly one DOCUMENTED_EXCEPTION finding bound
to the reason of that exception is recorded for the user, and no
SOURCE_MISSING finding of any kind. -/
theorem C6_exception_short_circuit (cfg : Config) (reM : String → String → Bool)
    (pre post : List CompException) (ex : CompException) (cmp : Source)
    (uid : String) (fs : FindMap) (s : String)
    (hdis : cfg.disable = [])
    (hpre : ∀ e ∈ pre, exSkipped reM cmp.name (usersGet cmp uid) e = true)
    (happ : exApplicable ex cmp.name = true)
    (hval : recGet (usersGet cmp uid) ex.field = .str s)
    (hmatch : reM ex.pattern s = true) :
    ∃ fs2, compareMissingUser cfg reM (pre ++ ex :: post) cmp uid fs
        = (fs2, Option.none) ∧
      lookupF fs2 uid = lookupF fs uid ++
        [⟨"DOCUMENTED_EXCEPTION", "{reason}", .notice, some ex.reason⟩] ∧
      ∀ u, ¬ u = uid → lookupF fs2 u = lookupF fs u := by
  have hfme := firstMatching_found reM cmp.name (usersGet cmp uid) pre hpre
    ex post s happ hval hmatch
  unfold compareMissingUser
  simp only [hfme]
  exact addFinding_ok cfg fs uid FindingType.DOCUMENTED_EXCEPTION
    [("reason", ex.reason)]
    ⟨"DOCUMENTED_EXCEPTION", "{reason}", .notice, some ex.reason⟩
    (by rw [hdis]; rfl) (call_documented ex.reason)

/-- Witness for C6 at the specification example: the contractor pattern
matches user contractor-42 and yields exactly the documented-exception
finding. -/
theorem C6_exception_short_circuit_witness :
    ∃ fs2, compareMissingUser ⟨[], []⟩ reMC6 ([] ++ exC6 :: []) srcC6
        "contractor-42" [] = (fs2, Option.none) ∧
      lookupF fs2 "contractor-42" = lookupF [] "contractor-42" ++
        [⟨"DOCUMENTED_EXCEPTION", "{reason}", .notice, some exC6.reason⟩] ∧
      ∀ u, ¬ u = "contractor-42" → lookupF fs2 u = lookupF [] u :=
  C6_exception_short_circuit ⟨[], []⟩ reMC6 [] [] exC6 srcC6 "contractor-42" []
    "contractor-42" rfl (by simp) (by rfl) (by rfl) (by decide)

/-- C1: evaluating StaticAnalysis.validate at a source whose single
record has a mapped, empty email: EMAIL_MISSING is recorded, and then
the unconditional split of the email at the at sign raises IndexError
(the empty string splits into a single part, so index one is out of
range), so validate does not complete without raising, contrary to the
claim that the split only happens for a non-empty value. -/
theorem C1_validate_raises_on_empty_email :
    staticValidate cfgC1 srcC1 (fun _ => "") 0 0 =
      ([("u1", [⟨"EMAIL_MISSING", "No email address", .error,
        some "No email address"⟩])], some PyErr.indexError) := by
  rfl

theorem seqF_ok (r : FindMap × Option PyErr) (k : FindMap → FindMap × Option PyErr)
    (fs1 : FindMap) (h : r = (fs1, Option.none)) : seqF r k = k fs1 := by
  rw [h]
  rfl

theorem countK_after_add (fs fs2 : FindMap) (uid : String) (g : Finding) (K : String)
    (h2 : lookupF fs2 uid = lookupF fs uid ++ [g]) :
    countK fs2 uid K = countK fs uid K + (if g.key == K then 1 else 0) := by
  unfold countK
  rw [h2, List.filter_append, List.length_append]
  cases hk : (g.key == K) <;> simp [List.filter, hk]

theorem missingKw_nil_of_all (kw : List (String × String)) (cs : List Char)
    (h : ∀ n ∈ fieldsChars cs, (lookupKw kw n).isNone = false) : missingKw kw cs = [] := by
  show (fieldsChars cs).filter _ = []
  rw [List.filter_eq_nil_iff]
  intro a ha
  simp [h a ha]

theorem normalized_str_field (m : List (String × String)) (r : Record) (f : String)
    (ty : FieldType) (hn : normalizedRec m r = true)
    (hmem : (f, ty) ∈ common_fields) (hty : strTyped ty = true)
    (hmapped : m.any (fun q => q.1 == f) = true) :
    ∃ s, recGet r f = .str s := by
  have hc := List.all_eq_true.mp hn (f, ty) hmem
  simp only [hmapped, if_true] at hc
  cases ty with
  | str =>
    cases hv : recGet r f <;> rw [hv] at hc <;> first | exact ⟨_, rfl⟩ | cases hc
  | email =>
    cases hv : recGet r f <;> rw [hv] at hc <;> first | exact ⟨_, rfl⟩ | cases hc
  | name =>
    cases hv : recGet r f <;> rw [hv] at hc <;> first | exact ⟨_, rfl⟩ | cases hc
  | enum vs =>
    cases hv : recGet r f <;> rw [hv] at hc <;> first | exact ⟨_, rfl⟩ | cases hc
  | date => cases hty
  | bool => cases hty

theorem cmpStatusStep_frame (cfg : Config) (strDT : PyDateTime → String)
    (src cmp : Source) (uid : String) (fs : FindMap) (hdis : cfg.disable = []) :
    ∃ fs2, cmpStatusStep cfg strDT src cmp uid fs = (fs2, Option.none) ∧
      ∀ K, K ∈ ["EMAIL_MISMATCH", "DOMAIN_MISMATCH"] →
        countK fs2 uid K = countK fs uid K := by
  unfold cmpStatusStep
  by_cases hd : fieldsDiffer src cmp uid "status" = true
  · rw [if_pos hd]
    obtain ⟨g, hcall, hkey⟩ := call_ok_of_covered FindingType.STATUS_MISMATCH
      [("source_status", pyStr strDT (recGet (usersGet src uid) "status")),
       ("compare_status", pyStr strDT (recGet (usersGet cmp uid) "status"))]
      (by decide)
      (missingKw_nil_of_all _ _ (by
        intro n hn
        rw [show fieldsChars FindingType.STATUS_MISMATCH.description.data
            = ["source_status", "compare_status"] from by decide] at hn
        fin_cases hn <;> rfl))
    obtain ⟨fs2, h1, h2, _⟩ := addFinding_ok cfg fs uid FindingType.STATUS_MISMATCH _ g
      (by rw [hdis]; rfl) hcall
    refine ⟨fs2, h1, ?_⟩
    intro K hK
    rw [countK_after_add fs fs2 uid g K h2, hkey]
    fin_cases hK <;> rfl
  · rw [if_neg hd]
    exact ⟨fs, rfl, fun K _ => rfl⟩

theorem addFinding_frame2 (cfg : Config) (fs : FindMap) (uid : String) (f : Finding)
    (kw : List (String × String)) (hdis : cfg.disable = [])
    (hwf : wfChars f.description.data = true)
    (hmiss : missingKw kw f.description.data = [])
    (hk1 : (f.key == "EMAIL_MISMATCH") = false)
    (hk2 : (f.key == "DOMAIN_MISMATCH") = false) :
    ∃ fs2, addFinding cfg fs uid f kw = (fs2, Option.none) ∧
      ∀ K, K ∈ ["EMAIL_MISMATCH", "DOMAIN_MISMATCH"] →
        countK fs2 uid K = countK fs uid K := by
  obtain ⟨g, hcall, hkey⟩ := call_ok_of_covered f kw hwf hmiss
  obtain ⟨fs2, h1, h2, _⟩ := addFinding_ok cfg fs uid f kw g (by rw [hdis]; rfl) hcall
  refine ⟨fs2, h1, ?_⟩
  intro K hK
  rw [countK_after_add fs fs2 uid g K h2, hkey]
  fin_cases hK
  · rw [hk1]
    rfl
  · rw [hk2]
    rfl

theorem cmpFirstNameStep_frame (cfg : Config) (strDT : PyDateTime → String)
    (src cmp : Source) (uid : String) (fs : FindMap) (hdis : cfg.disable = [])
    (hcmpn : normalizedRec cmp.mapping (usersGet cmp uid) = true) :
    ∃ fs2, cmpFirstNameStep cfg strDT src cmp uid fs = (fs2, Option.none) ∧
      ∀ K, K ∈ ["EMAIL_MISMATCH", "DOMAIN_MISMATCH"] →
        countK fs2 uid K = countK fs uid K := by
  unfold cmpFirstNameStep
  by_cases hd : fieldsDiffer src cmp uid "first_name" = true
  · rw [if_pos hd]
    exact addFinding_frame2 cfg fs uid FindingType.FIRST_NAME_MISMATCH _ hdis (by decide)
      (missingKw_nil_of_all _ _ (by
        intro n hn
        rw [show fieldsChars FindingType.FIRST_NAME_MISMATCH.description.data
            = ["source_name", "compare_name"] from by decide] at hn
        fin_cases hn <;> rfl)) (by decide) (by decide)
  · rw [if_neg hd]
    by_cases ho : fieldOnlyInCompare src cmp "first_name" = true
    · rw [if_pos ho]
      have hmapped : cmp.mapping.any (fun q => q.1 == "first_name") = true := by
        unfold fieldOnlyInCompare Source.hasField at ho
        simp only [Bool.and_eq_true] at ho
        exact ho.2
      obtain ⟨s, hs⟩ := normalized_str_field cmp.mapping (usersGet cmp uid) "first_name"
        .name hcmpn (by decide) (by decide) hmapped
      by_cases he : pyEq (recGet (usersGet cmp uid) "first_name") (Value.str "") = true
      · rw [if_pos he]
        exact addFinding_frame2 cfg fs uid FindingType.FIRST_NAME_MISSING [] hdis (by decide)
          (by decide) (by decide) (by decide)
      · rw [if_neg he]
        rw [hs]
        simp only [isValidNameV]
        cases hv : is_valid_name s with
        | false =>
          rw [if_pos (show (!false) = true from rfl)]
          exact addFinding_frame2 cfg fs uid FindingType.FIRST_NAME_INVALID
            [("name", pyStr strDT (Value.str s))] hdis (by decide)
            (missingKw_nil_of_all _ _ (by
              intro n hn
              rw [show fieldsChars FindingType.FIRST_NAME_INVALID.description.data
                  = ["name"] from by decide] at hn
              fin_cases hn <;> rfl)) (by decide) (by decide)
        | true =>
          rw [if_neg (show ¬ (!true) = true from by decide)]
          exact ⟨fs, rfl, fun K _ => rfl⟩
    · rw [if_neg ho]
      exact ⟨fs, rfl, fun K _ => rfl⟩

theorem cmpLastNameStep_frame (cfg : Config) (strDT : PyDateTime → String)
    (src cmp : Source) (uid : String) (fs : FindMap) (hdis : cfg.disable = [])
    (hcmpn : normalizedRec cmp.mapping (usersGet cmp uid) = true) :
    ∃ fs2, cmpLastNameStep cfg strDT src cmp uid fs = (fs2, Option.none) ∧
      ∀ K, K ∈ ["EMAIL_MISMATCH", "DOMAIN_MISMATCH"] →
        countK fs2 uid K = countK fs uid K := by
  unfold cmpLastNameStep
  by_cases hd : fieldsDiffer src cmp uid "last_name" = true
  · rw [if_pos hd]
    exact addFinding_frame2 cfg fs uid FindingType.LAST_NAME_MISMATCH _ hdis (by decide)
      (missingKw_nil_of_all _ _ (by
        intro n hn
        rw [show fieldsChars FindingType.LAST_NAME_MISMATCH.description.data
            = ["source_name", "compare_name"] from by decide] at hn
        fin_cases hn <;> rfl)) (by decide) (by decide)
  · rw [if_neg hd]
    by_cases ho : fieldOnlyInCompare src cmp "last_name" = true
    · rw [if_pos ho]
      have hmapped : cmp.mapping.any (fun q => q.1 == "last_name") = true := by
        unfold fieldOnlyInCompare Source.hasField at ho
        simp only [Bool.and_eq_true] at ho
        exact ho.2
      obtain ⟨s, hs⟩ := normalized_str_field cmp.mapping (usersGet cmp uid) "last_name"
        .name hcmpn (by decide) (by decide) hmapped
      by_cases he : pyEq (recGet (usersGet cmp uid) "last_name") (Value.str "") = true
      · rw [if_pos he]
        exact addFinding_frame2 cfg fs uid FindingType.LAST_NAME_MISSING [] hdis (by decide)
          (by decide) (by decide) (by decide)
      · rw [if_neg he]
        rw [hs]
        simp only [isValidNameV]
        cases hv : is_valid_name s with
        | false =>
          rw [if_pos (show (!false) = true from rfl)]
          exact addFinding_frame2 cfg fs uid FindingType.LAST_NAME_INVALID
            [("name", pyStr strDT (Value.str s))] hdis (by decide)
            (missingKw_nil_of_all _ _ (by
              intro n hn
              rw [show fieldsChars FindingType.LAST_NAME_INVALID.description.data
                  = ["name"] from by decide] at hn
              fin_cases hn <;> rfl)) (by decide) (by decide)
        | true =>
          rw [if_neg (show ¬ (!true) = true from by decide)]
          exact ⟨fs, rfl, fun K _ => rfl⟩
    · rw [if_neg ho]
      exact ⟨fs, rfl, fun K _ => rfl⟩

theorem cmpDeptStep_frame (cfg : Config) (strDT : PyDateTime → String)
    (src cmp : Source) (uid : String) (fs : FindMap) (hdis : cfg.disable = []) :
    ∃ fs2, cmpDeptStep cfg strDT src cmp uid fs = (fs2, Option.none) ∧
      ∀ K, K ∈ ["EMAIL_MISMATCH", "DOMAIN_MISMATCH"] →
        countK fs2 uid K = countK fs uid K := by
  unfold cmpDeptStep
  by_cases hd : fieldsDiffer src cmp uid "department" = true
  · rw [if_pos hd]
    exact addFinding_frame2 cfg fs uid FindingType.DEPT_MISMATCH _ hdis (by decide)
      (missingKw_nil_of_all _ _ (by
        intro n hn
        rw [show fieldsChars FindingType.DEPT_MISMATCH.description.data
            = ["source_dept", "compare_dept"] from by decide] at hn
        fin_cases hn <;> rfl)) (by decide) (by decide)
  · rw [if_neg hd]
    exact ⟨fs, rfl, fun K _ => rfl⟩

theorem cmpLocationStep_frame (cfg : Config) (strDT : PyDateTime → String)
    (src cmp : Source) (uid : String) (fs : FindMap) (hdis : cfg.disable = []) :
    ∃ fs2, cmpLocationStep cfg strDT src cmp uid fs = (fs2, Option.none) ∧
      ∀ K, K ∈ ["EMAIL_MISMATCH", "DOMAIN_MISMATCH"] →
        countK fs2 uid K = countK fs uid K := by
  unfold cmpLocationStep
  by_cases hd : fieldsDiffer src cmp uid "location" = true
  · rw [if_pos hd]
    exact addFinding_frame2 cfg fs uid FindingType.LOCATION_MISMATCH _ hdis (by decide)
      (missingKw_nil_of_all _ _ (by
        intro n hn
        rw [show fieldsChars FindingType.LOCATION_MISMATCH.description.data
            = ["source_location", "compare_location"] from by decide] at hn
        fin_cases hn <;> rfl)) (by decide) (by decide)
  · rw [if_neg hd]
    exact ⟨fs, rfl, fun K _ => rfl⟩

theorem cmpTitleStep_frame (cfg : Config) (strDT : PyDateTime → String)
    (src cmp : Source) (uid : String) (fs : FindMap) (hdis : cfg.disable = []) :
    ∃ fs2, cmpTitleStep cfg strDT src cmp uid fs = (fs2, Option.none) ∧
      ∀ K, K ∈ ["EMAIL_MISMATCH", "DOMAIN_MISMATCH"] →
        countK fs2 uid K = countK fs uid K := by
  unfold cmpTitleStep
  by_cases hd : fieldsDiffer src cmp uid "title" = true
  · rw [if_pos hd]
    exact addFinding_frame2 cfg fs uid FindingType.TITLE_MISMATCH _ hdis (by decide)
      (missingKw_nil_of_all _ _ (by
        intro n hn
        rw [show fieldsChars FindingType.TITLE_MISMATCH.description.data
            = ["source_title", "compare_title"] from by decide] at hn
        fin_cases hn <;> rfl)) (by decide) (by decide)
  · rw [if_neg hd]
    exact ⟨fs, rfl, fun K _ => rfl⟩

theorem cmpEmailStep_count (cfg : Config) (strDT : PyDateTime → String)
    (src cmp : Source) (uid : String) (fs : FindMap) (se ce : String)
    (hdis : cfg.disable = [])
    (hmap : fieldSupported src cmp "email" = true)
    (hse : recGet (usersGet src uid) "email" = Value.str se)
    (hce : recGet (usersGet cmp uid) "email" = Value.str ce) :
    ∃ fs2, cmpEmailStep cfg strDT src cmp uid fs = (fs2, Option.none) ∧
      countK fs2 uid "EMAIL_MISMATCH"
        = countK fs uid "EMAIL_MISMATCH" + (if se = ce then 0 else 1) ∧
      countK fs2 uid "DOMAIN_MISMATCH" = countK fs uid "DOMAIN_MISMATCH" := by
  have hsrcf : src.hasField "email" = true := by
    have hm2 := hmap
    unfold fieldSupported at hm2
    simp only [Bool.and_eq_true] at hm2
    exact hm2.1
  have hoc : fieldOnlyInCompare src cmp "email" = false := by
    unfold fieldOnlyInCompare
    rw [hsrcf]
    rfl
  have hfd : fieldsDiffer src cmp uid "email" = !(se == ce) := by
    unfold fieldsDiffer
    rw [hmap, hse, hce, pyEq_str_str]
    rfl
  unfold cmpEmailStep
  by_cases hd : fieldsDiffer src cmp uid "email" = true
  · rw [if_pos hd]
    have hne : ¬ se = ce := by
      rw [hfd] at hd
      simpa using hd
    obtain ⟨g, hcall, hkey⟩ := call_ok_of_covered FindingType.EMAIL_MISMATCH
      [("source_email", pyStr strDT (recGet (usersGet src uid) "email")),
       ("compare_email", pyStr strDT (recGet (usersGet cmp uid) "email"))]
      (by decide)
      (missingKw_nil_of_all _ _ (by
        intro n hn
        rw [show fieldsChars FindingType.EMAIL_MISMATCH.description.data
            = ["source_email", "compare_email"] from by decide] at hn
        fin_cases hn <;> rfl))
    obtain ⟨fs2, h1, h2, _⟩ := addFinding_ok cfg fs uid FindingType.EMAIL_MISMATCH _ g
      (by rw [hdis]; rfl) hcall
    refine ⟨fs2, h1, ?_, ?_⟩
    · rw [countK_after_add fs fs2 uid g _ h2, hkey, if_neg hne]
      rfl
    · rw [countK_after_add fs fs2 uid g _ h2, hkey]
      rfl
  · rw [if_neg hd]
    simp only [hoc, Bool.false_eq_true, if_false]
    have heq : se = ce := by
      rw [hfd] at hd
      simpa using hd
    refine ⟨fs, rfl, ?_, rfl⟩
    rw [if_pos heq]
    rfl

theorem cmpDomainStep_count (cfg : Config) (src cmp : Source) (uid : String)
    (fs : FindMap) (se ce sd cd : String)
    (hdis : cfg.disable = [])
    (hmap : fieldSupported src cmp "email" = true)
    (hse : recGet (usersGet src uid) "email" = Value.str se)
    (hce : recGet (usersGet cmp uid) "email" = Value.str ce)
    (hsd : pyIndex (splitOnChar (Char.ofNat 64) se.data) 1 = Except.ok sd)
    (hcd : pyIndex (splitOnChar (Char.ofNat 64) ce.data) 1 = Except.ok cd) :
    ∃ fs2, cmpDomainStep cfg src cmp uid fs = (fs2, Option.none) ∧
      countK fs2 uid "DOMAIN_MISMATCH"
        = countK fs uid "DOMAIN_MISMATCH" + (if sd = cd then 0 else 1) ∧
      countK fs2 uid "EMAIL_MISMATCH" = countK fs uid "EMAIL_MISMATCH" := by
  unfold cmpDomainStep
  rw [if_pos hmap]
  simp only [hse, hce]
  rw [show Char.ofNat 64 = '@' from rfl] at hsd hcd
  simp only [hsd, hcd]
  by_cases hsc : sd = cd
  · rw [hsc]
    simp only [beq_self_eq_true, Bool.not_true, Bool.false_eq_true, if_false]
    refine ⟨fs, rfl, ?_, rfl⟩
    rw [if_pos trivial]
    rfl
  · have hb : (!(sd == cd)) = true := by simp [hsc]
    rw [if_pos hb]
    obtain ⟨g, hcall, hkey⟩ := call_ok_of_covered FindingType.DOMAIN_MISMATCH
      [("domain", sd), ("compare_domain", cd)] (by decide)
      (missingKw_nil_of_all _ _ (by
        intro n hn
        rw [show fieldsChars FindingType.DOMAIN_MISMATCH.description.data
            = ["domain", "compare_domain"] from by decide] at hn
        fin_cases hn <;> rfl))
    obtain ⟨fs2, h1, h2, _⟩ := addFinding_ok cfg fs uid FindingType.DOMAIN_MISMATCH _ g
      (by rw [hdis]; rfl) hcall
    refine ⟨fs2, h1, ?_, ?_⟩
    · rw [countK_after_add fs fs2 uid g _ h2, hkey, if_neg hsc]
      rfl
    · rw [countK_after_add fs fs2 uid g _ h2, hkey]
      rfl

/-- C7: for every user present in both sources with the email field
mapped on both sides (values and domain portions given explicitly, the
compare record normalized, nothing disabled), the present-user branch of
compare completes without raising, emits DOMAIN_MISMATCH exactly when
the two domain portions differ, and emits EMAIL_MISMATCH exactly when
the two full addresses differ - the two findings are counted
independently, so equal domains under differing addresses yield only
EMAIL_MISMATCH. -/
theorem C7_domain_mismatch_iff (cfg : Config) (reM : String → String → Bool)
    (strDT : PyDateTime → String) (exs : List CompException)
    (src cmp : Source) (uid : String) (fs : FindMap) (se ce sd cd : String)
    (hdis : cfg.disable = [])
    (hpres : userMem src uid = true)
    (hcmpn : normalizedRec cmp.mapping (usersGet cmp uid) = true)
    (hmap : fieldSupported src cmp "email" = true)
    (hse : recGet (usersGet src uid) "email" = Value.str se)
    (hce : recGet (usersGet cmp uid) "email" = Value.str ce)
    (hsd : pyIndex (splitOnChar (Char.ofNat 64) se.data) 1 = Except.ok sd)
    (hcd : pyIndex (splitOnChar (Char.ofNat 64) ce.data) 1 = Except.ok cd) :
    ∃ fsf, compareUser cfg reM strDT exs src cmp uid fs = (fsf, Option.none) ∧
      countK fsf uid "DOMAIN_MISMATCH"
        = countK fs uid "DOMAIN_MISMATCH" + (if sd = cd then 0 else 1) ∧
      countK fsf uid "EMAIL_MISMATCH"
        = countK fs uid "EMAIL_MISMATCH" + (if se = ce then 0 else 1) := by
  obtain ⟨fs1, e1, c1⟩ := cmpStatusStep_frame cfg strDT src cmp uid fs hdis
  obtain ⟨fs2, e2, c2⟩ := cmpFirstNameStep_frame cfg strDT src cmp uid fs1 hdis hcmpn
  obtain ⟨fs3, e3, c3⟩ := cmpLastNameStep_frame cfg strDT src cmp uid fs2 hdis hcmpn
  obtain ⟨fs4, e4, c4a, c4b⟩ :=
    cmpEmailStep_count cfg strDT src cmp uid fs3 se ce hdis hmap hse hce
  obtain ⟨fs5, e5, c5a, c5b⟩ :=
    cmpDomainStep_count cfg src cmp uid fs4 se ce sd cd hdis hmap hse hce hsd hcd
  obtain ⟨fs6, e6, c6⟩ := cmpDeptStep_frame cfg strDT src cmp uid fs5 hdis
  obtain ⟨fs7, e7, c7⟩ := cmpLocationStep_frame cfg strDT src cmp uid fs6 hdis
  obtain ⟨fs8, e8, c8⟩ := cmpTitleStep_frame cfg strDT src cmp uid fs7 hdis
  refine ⟨fs8, ?_, ?_, ?_⟩
  · unfold compareUser
    rw [hpres]
    rw [if_neg (show ¬ (!true) = true from by decide)]
    unfold comparePresentUser
    rw [seqF_ok _ _ fs1 e1, seqF_ok _ _ fs2 e2, seqF_ok _ _ fs3 e3, seqF_ok _ _ fs4 e4,
        seqF_ok _ _ fs5 e5, seqF_ok _ _ fs6 e6, seqF_ok _ _ fs7 e7]
    exact e8
  · rw [c8 "DOMAIN_MISMATCH" (by decide), c7 "DOMAIN_MISMATCH" (by decide),
        c6 "DOMAIN_MISMATCH" (by decide), c5a, c4b,
        c3 "DOMAIN_MISMATCH" (by decide), c2 "DOMAIN_MISMATCH" (by decide),
        c1 "DOMAIN_MISMATCH" (by decide)]
  · rw [c8 "EMAIL_MISMATCH" (by decide), c7 "EMAIL_MISMATCH" (by decide),
        c6 "EMAIL_MISMATCH" (by decide), c5b, c4a,
        c3 "EMAIL_MISMATCH" (by decide), c2 "EMAIL_MISMATCH" (by decide),
        c1 "EMAIL_MISMATCH" (by decide)]

/-- Witness for C7 at a concrete input: user u1 with a@x.com against
b@x.com, addresses differing on the same domain, so EMAIL_MISMATCH is
counted once and DOMAIN_MISMATCH not at all. -/
theorem C7_domain_mismatch_iff_witness :
    ∃ fsf, compareUser cfgC7 (fun _ _ => false) (fun _ => "") [] srcC7 cmpC7 "u1" []
        = (fsf, Option.none) ∧
      countK fsf "u1" "DOMAIN_MISMATCH"
        = countK ([] : FindMap) "u1" "DOMAIN_MISMATCH"
          + (if "x.com" = "x.com" then 0 else 1) ∧
      countK fsf "u1" "EMAIL_MISMATCH"
        = countK ([] : FindMap) "u1" "EMAIL_MISMATCH"
          + (if "a@x.com" = "b@x.com" then 0 else 1) :=
  C7_domain_mismatch_iff cfgC7 (fun _ _ => false) (fun _ => "") [] srcC7 cmpC7 "u1" []
    "a@x.com" "b@x.com" "x.com" "x.com" rfl (by decide) (by decide) (by decide)
    rfl rfl rfl rfl

end UAR
